import Mathlib

/-!
Shallow embedding of the core of `wlvideo` (a zero-copy video wallpaper for
Wayland), translated from `src/decode.c`, `src/render.c`, `src/wayland.c`,
`src/main.c` and `src/wlvideo.h`, together with theorems about the decoder's
DMA-BUF export, the renderer's EGL image cache and dual draw paths, the
playback scheduler's catch-up loop and handle release, and the output
lifecycle state machine.

Machine integers are modelled as `Nat`/`Int`; wall-clock times and frame
durations as `Rat`.  External collaborators (libva, EGL, the compositor) are
modelled as oracle parameters: each call that can succeed or fail takes its
outcome as an explicit argument.  File descriptors returned by the VA-API
export are modelled symbolically (`FdVal`): the `dup` system call is modelled
as a tagged copy of the original descriptor, which is what descriptor
ownership tracking needs.
-/

set_option maxRecDepth 4000

/-- Color matrix classification, from `ColorSpace` in `wlvideo.h`. -/
inductive CSpace where
  | bt601
  | bt709
  | bt2020
deriving DecidableEq, Repr

/-- Color range classification, from `ColorRange` in `wlvideo.h`. -/
inductive CRange where
  | limited
  | full
deriving DecidableEq, Repr

/-- The tag of the `Frame` payload union, from the anonymous enum in `wlvideo.h`. -/
inductive FrameType where
  | hw
  | sw
deriving DecidableEq, Repr

/-- Ring buffer slot count, `SW_RING_SIZE` in `wlvideo.h`. -/
def SW_RING_SIZE : Nat := 2

/-- EGL image cache capacity, `EGL_CACHE_SIZE` in `wlvideo.h`. -/
def EGL_CACHE_SIZE : Nat := 8

/-- The value of `DRM_FORMAT_MOD_INVALID` (`0x00ffffffffffffff`). -/
def MOD_INVALID : Nat := 72057594037927935

/-- The value of `DRM_FORMAT_MOD_LINEAR` (`0`). -/
def MOD_LINEAR : Nat := 0

/-! ## DMA-BUF export (`export_vaapi_dmabuf` in `decode.c`)

The VA-API surface descriptor returned by `vaExportSurfaceHandle` is a set of
underlying buffer objects (each carrying one file descriptor and a format
modifier) plus layers of planes, each plane referencing an object by index.
`export_vaapi_dmabuf` iterates the layers and planes in order, stopping after
4 planes, copying strides and offsets and deduplicating descriptor ownership
through a `taken[]` array.  We flatten the layer/plane nest into a single
plane list, which is exact because both C loop conditions test
`dmabuf->num_planes < 4`, so exactly the first four flattened planes are
processed. -/

/-- Symbolic value stored in a `DmaBuf.fd` slot: `invalid` is the `-1`
initialisation, `orig o` means the original descriptor of export object `o`
(ownership taken), `dup o` means a `dup(2)` copy of object `o`'s descriptor. -/
inductive FdVal where
  | invalid
  | orig (o : Nat)
  | dup (o : Nat)
deriving DecidableEq, Repr

/-- One plane of the VA-API export descriptor (a flattened
`desc.layers[l]` entry: object index, byte offset, pitch). -/
structure VAPlane where
  objectIndex : Nat
  offset : Nat
  pitch : Nat
deriving DecidableEq, Repr

/-- The `VADRMPRIMESurfaceDescriptor` as consumed by `export_vaapi_dmabuf`:
`numObjects` many underlying objects (the VA-API bounds this by 4),
a modifier per object, and the flattened plane list. -/
structure VADesc where
  fourcc : Nat
  width : Nat
  height : Nat
  numObjects : Nat
  objModifier : Nat → Nat
  planes : List VAPlane

/-- One plane record of the produced `DmaBuf` (fd, offset, stride, modifier
slots of the fixed arrays in `wlvideo.h`). -/
structure HwPlane where
  fd : FdVal
  offset : Nat
  stride : Nat
  modifier : Nat
deriving DecidableEq, Repr

/-- The plane-copy loop of `export_vaapi_dmabuf`: walks the (flattened,
already truncated to 4) plane list, takes ownership of each object's
descriptor on first reference, duplicates it on later references, and leaves
`fd` at its `-1` initialisation when the object index is out of range. -/
def exportLoop (numObjects : Nat) (objMod : Nat → Nat) (taken : Nat → Bool) :
    List VAPlane → List HwPlane × (Nat → Bool)
  | [] => ([], taken)
  | p :: rest =>
    if p.objectIndex < numObjects then
      if taken p.objectIndex then
        let r := exportLoop numObjects objMod taken rest
        ({ fd := FdVal.dup p.objectIndex, offset := p.offset, stride := p.pitch,
           modifier := objMod p.objectIndex } :: r.1, r.2)
      else
        let r := exportLoop numObjects objMod
          (fun o => if o = p.objectIndex then true else taken o) rest
        ({ fd := FdVal.orig p.objectIndex, offset := p.offset, stride := p.pitch,
           modifier := objMod p.objectIndex } :: r.1, r.2)
    else
      let r := exportLoop numObjects objMod taken rest
      ({ fd := FdVal.invalid, offset := p.offset, stride := p.pitch,
         modifier := MOD_INVALID } :: r.1, r.2)

/-- The plane array and final `taken[]` state built by `export_vaapi_dmabuf`
from descriptor `d` (both C loops bound `num_planes` by 4, hence `take 4`). -/
def exportPlanes (d : VADesc) : List HwPlane × (Nat → Bool) :=
  exportLoop d.numObjects d.objModifier (fun _ => false) (d.planes.take 4)

/-- The object descriptors closed at the end of `export_vaapi_dmabuf`:
every object whose descriptor was not taken by a plane. -/
def closedObjects (d : VADesc) : List Nat :=
  (List.range d.numObjects).filter (fun o => !(exportPlanes d).2 o)

/-- Default plane used with `List.getD` in statements about plane arrays. -/
def hwDef : HwPlane := { fd := FdVal.invalid, offset := 0, stride := 0, modifier := 0 }

/-- Default descriptor plane used with `List.getD`. -/
def vaDef : VAPlane := { objectIndex := 0, offset := 0, pitch := 0 }

lemma exportLoop_length (n : Nat) (m : Nat → Nat) :
    ∀ (l : List VAPlane) (t : Nat → Bool),
      (exportLoop n m t l).1.length = l.length := by
  intro l
  induction l with
  | nil => intro t; simp [exportLoop]
  | cons p rest ih =>
    intro t
    by_cases h1 : p.objectIndex < n
    · by_cases h2 : t p.objectIndex
      · simp [exportLoop, h1, h2, ih]
      · simp [exportLoop, h1, h2, ih]
    · simp [exportLoop, h1, ih]

lemma exportLoop_taken (n : Nat) (m : Nat → Nat) :
    ∀ (l : List VAPlane) (t : Nat → Bool) (o : Nat),
      (exportLoop n m t l).2 o =
        (t o || (decide (o < n) && l.any fun p => p.objectIndex == o)) := by
  intro l
  induction l with
  | nil => intro t o; simp [exportLoop]
  | cons p rest ih =>
    intro t o
    by_cases h1 : p.objectIndex < n
    · by_cases h2 : t p.objectIndex
      · simp only [exportLoop, h1, if_pos, h2, if_true, List.any_cons]
        rw [ih]
        by_cases ho : p.objectIndex = o
        · subst ho
          simp [h1, h2]
        · have : (p.objectIndex == o) = false := by simp [ho]
          simp [this]
      · simp only [exportLoop, h1, if_pos, h2, Bool.false_eq_true, if_false, List.any_cons]
        rw [ih]
        by_cases ho : o = p.objectIndex
        · subst ho
          simp [h1, h2]
        · have h3 : (p.objectIndex == o) = false := by
            simp
            intro h
            exact ho h.symm
          simp [h3, ho]
    · simp only [exportLoop, h1, if_false, List.any_cons]
      rw [ih]
      by_cases ho : p.objectIndex = o
      · subst ho
        simp [h1]
      · have : (p.objectIndex == o) = false := by simp [ho]
        simp [this]

lemma exportLoop_append (n : Nat) (m : Nat → Nat) :
    ∀ (l1 l2 : List VAPlane) (t : Nat → Bool),
      exportLoop n m t (l1 ++ l2) =
        ((exportLoop n m t l1).1 ++ (exportLoop n m (exportLoop n m t l1).2 l2).1,
         (exportLoop n m (exportLoop n m t l1).2 l2).2) := by
  intro l1
  induction l1 with
  | nil => intro l2 t; simp [exportLoop]
  | cons p rest ih =>
    intro l2 t
    by_cases h1 : p.objectIndex < n
    · by_cases h2 : t p.objectIndex
      · simp [exportLoop, h1, h2, ih]
      · simp [exportLoop, h1, h2, ih]
    · simp [exportLoop, h1, ih]

lemma exportLoop_fd (n : Nat) (m : Nat → Nat) (l : List VAPlane) (t : Nat → Bool)
    (i : Nat) (hi : i < l.length) :
    ((exportLoop n m t l).1.getD i hwDef).fd =
      (if (l.getD i vaDef).objectIndex < n then
         if t (l.getD i vaDef).objectIndex ||
            ((l.take i).any fun q => q.objectIndex == (l.getD i vaDef).objectIndex)
         then FdVal.dup (l.getD i vaDef).objectIndex
         else FdVal.orig (l.getD i vaDef).objectIndex
       else FdVal.invalid) := by
  have hsplit : l.take i ++ l.drop i = l := List.take_append_drop i l
  have hlen : (l.take i).length = i := by
    rw [List.length_take]
    omega
  have hdrop : l.drop i = l.get ⟨i, hi⟩ :: l.drop (i + 1) := List.drop_eq_get_cons hi
  have hq : l.getD i vaDef = l.get ⟨i, hi⟩ := by
    rw [List.getD_eq_getElem l vaDef hi]
    rfl
  set q : VAPlane := l.get ⟨i, hi⟩ with hqdef
  have happ := exportLoop_append n m (l.take i) (l.drop i) t
  rw [hsplit] at happ
  have hlen2 : ((exportLoop n m t (l.take i)).1).length = i := by
    rw [exportLoop_length]
    exact hlen
  set t2 : Nat → Bool := (exportLoop n m t (l.take i)).2 with ht2
  have happ1 : (exportLoop n m t l).1 =
      (exportLoop n m t (l.take i)).1 ++ (exportLoop n m t2 (l.drop i)).1 := by
    rw [happ]
  have hgetD : (exportLoop n m t l).1.getD i hwDef =
      ((exportLoop n m t2 (l.drop i)).1.getD 0 hwDef) := by
    rw [happ1]
    rw [List.getD_append_right _ _ _ _ (le_of_eq hlen2)]
    rw [hlen2]
    simp
  rw [hgetD, hdrop, hq]
  have htaken := exportLoop_taken n m (l.take i) t q.objectIndex
  rw [← ht2] at htaken
  by_cases h1 : q.objectIndex < n
  · by_cases h2 : t2 q.objectIndex
    · have hcond : (t q.objectIndex ||
          ((l.take i).any fun r => r.objectIndex == q.objectIndex)) = true := by
        have h3 : (t q.objectIndex || (decide (q.objectIndex < n) &&
            (l.take i).any fun p => p.objectIndex == q.objectIndex)) = true := by
          rw [← htaken]
          exact h2
        simpa [h1] using h3
      simp [exportLoop, h1, h2, hq, hcond]
    · have hcond : (t q.objectIndex ||
          ((l.take i).any fun r => r.objectIndex == q.objectIndex)) = false := by
        have h2f : t2 q.objectIndex = false := by
          cases hb : t2 q.objectIndex
          · rfl
          · exact absurd hb h2
        have h3 : (t q.objectIndex || (decide (q.objectIndex < n) &&
            (l.take i).any fun p => p.objectIndex == q.objectIndex)) = false := by
          rw [← htaken]
          exact h2f
        simpa [h1] using h3
      simp [exportLoop, h1, h2, hq, hcond]
  · simp [exportLoop, h1, hq]

/-! ## Decoder (`decode.c`)

The decoder's mutable state is modelled by `DecState`; the external calls
(`avcodec_receive_frame`, `av_read_frame`, `vaExportSurfaceHandle`,
`av_hwframe_transfer_data`) are modelled by oracle events fed to
`decoder_get_frame` as a list (one entry per loop iteration), so the C
`while (1)` loop becomes structural recursion over that list.  Exhausting
the event list (the C loop would keep blocking on input) yields `none`. -/

/-- CPU pixel format relevant to `extract_sw_frame`: NV12, planar YUV420P,
or anything else (rejected). -/
inductive SwFmt where
  | nv12
  | yuv420p
  | other
deriving DecidableEq, Repr

/-- The mutable fields of `struct Decoder` that the modelled code touches. -/
structure DecState where
  surfaceGeneration : Nat
  dmabufExportTested : Bool
  dmabufExportWorks : Bool
  currentRingSlot : Nat
  eof : Bool
  timeBase : Rat
  ctxColorspace : Option CSpace
  ctxRange : Option CRange
deriving DecidableEq, Repr

/-- A decoded image as handed back by `avcodec_receive_frame`, together with
the oracle outcomes of the external calls made while processing it:
`exportDesc` is the result of `vaExportSurfaceHandle` (`none` = failure) and
`transferOk` the result of `av_hwframe_transfer_data`.  For a VA-API source
the transfer target format is NV12 by construction, so `swFormat` is the
source format only when `isVaapi` is false. -/
structure DecodedImage where
  isVaapi : Bool
  width : Nat
  height : Nat
  pts : Option Rat
  colorspace : Option CSpace
  colorRange : Option CRange
  surfaceId : Nat
  exportDesc : Option VADesc
  transferOk : Bool
  swFormat : SwFmt

/-- The DmaBuf produced for a frame (`DmaBuf` in `wlvideo.h`); `planes`
models the four fixed-size arrays plus `num_planes`. -/
structure DmaBufM where
  planes : List HwPlane
  fourcc : Nat
  width : Nat
  height : Nat
deriving DecidableEq, Repr

/-- The `hw` member of `Frame`. -/
structure HwPart where
  surfaceId : Nat
  generation : Nat
  dmabuf : DmaBufM
deriving DecidableEq, Repr

/-- The `sw` member of `Frame`. -/
structure SwPart where
  ringSlot : Nat
  pixelFormatNv12 : Bool
  available : Bool
deriving DecidableEq, Repr

/-- The `Frame` structure of `wlvideo.h`. -/
structure FrameM where
  ftype : FrameType
  pts : Rat
  width : Nat
  height : Nat
  colorspace : CSpace
  colorRange : CRange
  hw : HwPart
  sw : SwPart
deriving DecidableEq, Repr

/-- Detection of the color matrix, from `detect_colorspace` in `decode.c`:
embedded frame value first, then the codec context, then the width
heuristic (1280 or wider means BT.709, else BT.601). -/
def detect_colorspace (img : DecodedImage) (ctxCs : Option CSpace) : CSpace :=
  match img.colorspace with
  | some cs => cs
  | Option.none =>
    match ctxCs with
    | some cs => cs
    | Option.none => if img.width ≥ 1280 then CSpace.bt709 else CSpace.bt601

/-- Detection of the color range, from `detect_range` in `decode.c`:
embedded value first, then the codec context, defaulting to limited. -/
def detect_range (img : DecodedImage) (ctxCr : Option CRange) : CRange :=
  match img.colorRange with
  | some cr => cr
  | Option.none =>
    match ctxCr with
    | some cr => cr
    | Option.none => CRange.limited

/-- Translation of `export_vaapi_dmabuf` from `decode.c`.  On a non-VA-API
frame or a failed `vaExportSurfaceHandle` it returns false without touching
the frame or decoder.  On a successful export it tags the frame `FRAME_HW`,
stamps `surface_id` and `generation = dec->surface_generation++`
(post-increment: the stored value is the old counter and the counter is
bumped), fills the plane arrays through the ownership-deduplicating loop,
and reports whether at least one plane was produced. -/
def export_vaapi_dmabuf (dec : DecState) (img : DecodedImage) (frame : FrameM) :
    Bool × FrameM × DecState :=
  if !img.isVaapi then (false, frame, dec)
  else
    match img.exportDesc with
    | Option.none => (false, frame, dec)
    | some d =>
      let frame1 : FrameM :=
        { frame with
          ftype := FrameType.hw,
          hw := { surfaceId := img.surfaceId,
                  generation := dec.surfaceGeneration,
                  dmabuf := { planes := (exportPlanes d).1, fourcc := d.fourcc,
                              width := d.width, height := d.height } } }
      let dec1 : DecState := { dec with surfaceGeneration := dec.surfaceGeneration + 1 }
      (decide ((exportPlanes d).1.length > 0), frame1, dec1)

/-- Translation of `extract_sw_frame` from `decode.c`.  A GPU-resident frame
is first transferred to CPU memory (oracle `img.transferOk`); an unsupported
CPU format is rejected; otherwise the next ring slot is claimed round-robin
and the frame's `sw` payload is marked available.  The frame type is set to
`FRAME_SW` only when it is not already `FRAME_HW`. -/
def extract_sw_frame (dec : DecState) (img : DecodedImage) (frame : FrameM) :
    Bool × FrameM × DecState :=
  if img.isVaapi && !img.transferOk then (false, frame, dec)
  else
    let fmt := if img.isVaapi then SwFmt.nv12 else img.swFormat
    if fmt = SwFmt.other then (false, frame, dec)
    else
      let slot := dec.currentRingSlot
      let dec1 : DecState := { dec with currentRingSlot := (slot + 1) % SW_RING_SIZE }
      let frame1 : FrameM :=
        { frame with
          ftype := if frame.ftype = FrameType.hw then FrameType.hw else FrameType.sw,
          sw := { ringSlot := slot, pixelFormatNv12 := true, available := true } }
      (true, frame1, dec1)

/-- One `av_read_frame` outcome inside the decode loop: end of stream
(a flush packet is sent and the loop continues), a read error, a packet for
another stream (skipped), or a video packet whose `avcodec_send_packet`
either fails hard or is accepted. -/
inductive ReadEvent where
  | readEof
  | readErr
  | wrongStream
  | packet (sendFail : Bool)

/-- One iteration of the `decoder_get_frame` loop, keyed by the outcome of
`avcodec_receive_frame`. -/
inductive LoopEvent where
  | recvOk (img : DecodedImage)
  | recvEof
  | recvErr
  | needInput (r : ReadEvent)

/-- The metadata assignment at the top of the `ret == 0` arm of
`decoder_get_frame`: pts, dimensions, detected color matrix and range, and
the payload initialised to an unavailable software frame. -/
def frame_metadata (dec : DecState) (frame : FrameM) (img : DecodedImage) : FrameM :=
  { frame with
    pts := match img.pts with
           | some p => p * dec.timeBase
           | Option.none => 0,
    width := img.width,
    height := img.height,
    colorspace := detect_colorspace img dec.ctxColorspace,
    colorRange := detect_range img dec.ctxRange,
    ftype := FrameType.sw,
    sw := { frame.sw with available := false } }

/-- The gated export attempt of the `ret == 0` arm of `decoder_get_frame`:
the DMA-BUF export is attempted only when the image is VA-API resident and
export is not already proven broken. -/
def decodeExport (dec : DecState) (frame : FrameM) (img : DecodedImage) :
    Bool × FrameM × DecState :=
  if img.isVaapi && (!dec.dmabufExportTested || dec.dmabufExportWorks) then
    export_vaapi_dmabuf dec img (frame_metadata dec frame img)
  else (false, frame_metadata dec frame img, dec)

/-- The rest of the `ret == 0` arm of `decoder_get_frame`: software
extraction is forced whenever the export did not succeed
(`need_sw2` is `need_sw || !hw_ok`, from `if (!hw_ok) need_sw = true`), run
only when a ring was passed, and the call reports
`hw_ok || frame->sw.available`. -/
def process_decoded (dec : DecState) (frame : FrameM) (ringPresent needSw : Bool)
    (img : DecodedImage) : Bool × FrameM × DecState :=
  let r1 := decodeExport dec frame img
  if ringPresent && (needSw || !r1.1) then
    let r2 := extract_sw_frame r1.2.2 img r1.2.1
    if !r2.1 && !r1.1 then (false, r2.2.1, r2.2.2)
    else (r1.1 || r2.2.1.sw.available, r2.2.1, r2.2.2)
  else (r1.1 || r1.2.1.sw.available, r1.2.1, r1.2.2)

/-- Translation of `decoder_get_frame` from `decode.c`; the event list
supplies one entry per iteration of the C `while (1)` loop. -/
def decoder_get_frame (dec : DecState) (frame : FrameM) (ringPresent needSw : Bool) :
    List LoopEvent → Option (Bool × FrameM × DecState)
  | [] => Option.none
  | e :: rest =>
    match e with
    | LoopEvent.recvOk img => some (process_decoded dec frame ringPresent needSw img)
    | LoopEvent.recvEof => some (false, frame, { dec with eof := true })
    | LoopEvent.recvErr => some (false, frame, dec)
    | LoopEvent.needInput r =>
      match r with
      | ReadEvent.readEof => decoder_get_frame dec frame ringPresent needSw rest
      | ReadEvent.readErr => some (false, frame, dec)
      | ReadEvent.wrongStream => decoder_get_frame dec frame ringPresent needSw rest
      | ReadEvent.packet sendFail =>
        if sendFail then some (false, frame, dec)
        else decoder_get_frame dec frame ringPresent needSw rest

/-- Translation of `decoder_seek_start` from `decode.c`: if both the seek
and the byte-offset fallback fail, the call returns an error with the state
untouched; otherwise buffers are flushed, `eof` is cleared and the surface
generation is advanced by 100. -/
def decoder_seek_start (dec : DecState) (seekOk fallbackOk : Bool) : Option DecState :=
  if !seekOk && !fallbackOk then Option.none
  else some { dec with eof := false, surfaceGeneration := dec.surfaceGeneration + 100 }

/-- Translation of `decoder_dmabuf_export_supported` from `decode.c`. -/
def decoder_dmabuf_export_supported (dec : DecState) : Bool :=
  if !dec.dmabufExportTested then true else dec.dmabufExportWorks

/-- Translation of `decoder_set_dmabuf_export_result` from `decode.c`. -/
def decoder_set_dmabuf_export_result (dec : DecState) (works : Bool) : DecState :=
  { dec with dmabufExportTested := true, dmabufExportWorks := works }

/-! ## Renderer (`render.c`)

The renderer state carries the capability flags probed at init time, the
process-wide DMA-BUF compatibility flags, the 8-entry EGL image cache and
the texture allocation state.  `eglCreateImageKHR` is the only external
call whose outcome matters; it is passed as an oracle argument
(`importResult`), where `none` models `EGL_NO_IMAGE` and `some img` a fresh
image handle. -/

/-- One entry of the renderer's EGL image cache (`CacheEntry` in
`render.c`); `image = none` models `EGL_NO_IMAGE`. -/
structure CacheEntry where
  surfaceId : Nat
  generation : Nat
  image : Option Nat
  lastUse : Nat
deriving DecidableEq, Repr

/-- A zeroed cache entry (the `calloc` initialisation of `struct Renderer`
plus `image = EGL_NO_IMAGE`). -/
def emptyEntry : CacheEntry :=
  { surfaceId := 0, generation := 0, image := Option.none, lastUse := 0 }

/-- The fields of `struct Renderer` that the modelled code touches. -/
structure RendState where
  hasDmabuf : Bool
  hasModifiers : Bool
  hasYuvHint : Bool
  progExtOk : Bool
  dmabufTested : Bool
  dmabufWorks : Bool
  cache : List CacheEntry
  frameCount : Nat
  texAllocated : Bool
  texW : Nat
  texH : Nat

/-- The LRU scan of `cache_get` in `render.c`: starting from index 0 with
`oldest = cache[0].last_use`, an empty slot (`surface_id == 0`) is taken
immediately, otherwise the first entry with a strictly smaller `last_use`
becomes the new candidate. -/
def lruFrom : List CacheEntry → Nat → Nat → Nat → Nat
  | [], _, best, _ => best
  | e :: rest, i, best, oldest =>
    if e.surfaceId = 0 then i
    else if e.lastUse < oldest then lruFrom rest (i + 1) i e.lastUse
    else lruFrom rest (i + 1) best oldest

/-- The slot chosen by the eviction scan of `cache_get`. -/
def lruIndex (cache : List CacheEntry) : Nat :=
  match cache with
  | [] => 0
  | e :: _ => lruFrom cache 0 0 e.lastUse

/-- Translation of `cache_get` from `render.c`: exact
`(surface_id, generation)` lookup first; on a miss the LRU slot is claimed,
its previous image destroyed, and its key overwritten.  Returns the slot
index together with the updated state. -/
def cache_get (r : RendState) (id gen : Nat) : Nat × RendState :=
  match r.cache.findIdx? (fun e => e.surfaceId == id && e.generation == gen) with
  | some i => (i, r)
  | Option.none =>
    let i := lruIndex r.cache
    let e := r.cache.getD i emptyEntry
    let e2 : CacheEntry := { e with image := Option.none, surfaceId := id, generation := gen }
    (i, { r with cache := r.cache.set i e2 })

/-- Whether `cache_get` hits an existing `(surface_id, generation)` entry. -/
def cacheHit (r : RendState) (id gen : Nat) : Bool :=
  (r.cache.findIdx? (fun e => e.surfaceId == id && e.generation == gen)).isSome

/-- The effective modifier of a plane as computed by `render_dmabuf`
(`DRM_FORMAT_MOD_INVALID` is replaced by `DRM_FORMAT_MOD_LINEAR`). -/
def effModifier (m : Nat) : Nat := if m = MOD_INVALID then MOD_LINEAR else m

/-- Result of `render_dmabuf`: `drew` is the C return value,
`importAttempted` records whether `eglCreateImageKHR` was actually called,
and `r` is the renderer state afterwards. -/
structure DrawOut where
  drew : Bool
  importAttempted : Bool
  r : RendState

/-- Translation of `render_dmabuf` from `render.c`.  Bails out without any
attempt when DMA-BUF import or the external-image program is unavailable,
or when import has already been tested and found broken.  Otherwise the
cache entry for `(surface_id, generation)` is fetched; if it has no image,
plane modifiers are checked (a non-linear modifier without the modifier
extension marks import broken and clears the claimed entry without calling
the import), then `eglCreateImageKHR` is attempted: failure marks import
broken and clears the claimed entry, success stores the image and
marks import working on the first test.  A usable image is stamped with the
current frame counter and drawn. -/
def render_dmabuf (r : RendState) (f : FrameM) (importResult : Option Nat) : DrawOut :=
  if !r.hasDmabuf || !r.progExtOk then { drew := false, importAttempted := false, r := r }
  else if r.dmabufTested && !r.dmabufWorks then
    { drew := false, importAttempted := false, r := r }
  else
    let g := cache_get r f.hw.surfaceId f.hw.generation
    let i := g.1
    let r1 := g.2
    let e := r1.cache.getD i emptyEntry
    if e.image = Option.none then
      if f.hw.dmabuf.planes.any
          (fun p => !r1.hasModifiers && effModifier p.modifier ≠ MOD_LINEAR) then
        let e2 : CacheEntry := { e with surfaceId := 0 }
        { drew := false
          importAttempted := false
          r := { r1 with
            dmabufTested := true
            dmabufWorks := false
            cache := r1.cache.set i e2 } }
      else
        match importResult with
        | Option.none =>
          let e2 : CacheEntry := { e with surfaceId := 0 }
          { drew := false
            importAttempted := true
            r := { r1 with
              dmabufTested := true
              dmabufWorks := false
              cache := r1.cache.set i e2 } }
        | some img =>
          let e2 : CacheEntry := { e with image := some img, lastUse := r1.frameCount }
          let r2 := { r1 with cache := r1.cache.set i e2 }
          let r3 := if !r2.dmabufTested
                    then { r2 with dmabufTested := true, dmabufWorks := true }
                    else r2
          { drew := true, importAttempted := true, r := r3 }
    else
      let e2 : CacheEntry := { e with lastUse := r1.frameCount }
      { drew := true, importAttempted := false, r := { r1 with cache := r1.cache.set i e2 } }

/-- Translation of the texture management of `render_software` in
`render.c`: the luma/chroma textures are reallocated only when the frame
dimensions change, then the planes are uploaded and drawn (upload and draw
have no effect on the modelled state). -/
def render_software (r : RendState) (f : FrameM) : RendState :=
  if !r.texAllocated || r.texW ≠ f.width || r.texH ≠ f.height then
    { r with texW := f.width, texH := f.height, texAllocated := true }
  else r

/-- Result of `renderer_draw`: the returned boolean, whether the zero-copy
path drew, whether the software path drew, whether `eglCreateImageKHR` was
called, and the renderer state afterwards. -/
structure RDrawOut where
  ok : Bool
  extDrew : Bool
  swDrew : Bool
  importAttempted : Bool
  r : RendState

/-- Translation of `renderer_draw` from `render.c`: the frame counter is
bumped, the zero-copy path is tried only when `try_dmabuf` is set and the
frame carries a `FRAME_HW` payload, the software path runs when the
zero-copy path did not draw and a CPU copy is available, and the zero-copy
outcome is returned. -/
def renderer_draw (r : RendState) (f : FrameM) (tryDmabuf : Bool)
    (importResult : Option Nat) : RDrawOut :=
  let r0 := { r with frameCount := r.frameCount + 1 }
  let d := if tryDmabuf && f.ftype == FrameType.hw
           then render_dmabuf r0 f importResult
           else { drew := false, importAttempted := false, r := r0 }
  if !d.drew && f.sw.available then
    { ok := d.drew
      extDrew := d.drew
      swDrew := true
      importAttempted := d.importAttempted
      r := render_software d.r f }
  else
    { ok := d.drew
      extDrew := d.drew
      swDrew := false
      importAttempted := d.importAttempted
      r := d.r }

/-- Translation of `renderer_clear_cache` from `render.c`: every entry's
image is destroyed and its `surface_id` zeroed (generation and `last_use`
are left as they are). -/
def renderer_clear_cache (r : RendState) : RendState :=
  { r with cache := r.cache.map fun e => { e with image := Option.none, surfaceId := 0 } }

/-- Modelled from the spec: `renderer_reset_dmabuf_state` is declared in
`wlvideo.h` and called from `reset_renderer` in `main.c`, but its definition
is not among the given sources.  Per the spec a full renderer reset resets
the process-wide zero-copy compatibility flags so that import is probed
again (spec 4.2: the flag is "reset only on a full context loss"). -/
def renderer_reset_dmabuf_state (r : RendState) : RendState :=
  { r with dmabufTested := false, dmabufWorks := false }

/-- Modelled from the spec: `decoder_increment_generation` is declared in
`wlvideo.h` and called from `reset_renderer` in `main.c`, but its definition
is not among the given sources.  Per the spec (2, 3) the surface generation
counter is "incremented ... on every external invalidation request". -/
def decoder_increment_generation (dec : DecState) : DecState :=
  { dec with surfaceGeneration := dec.surfaceGeneration + 1 }

/-- The cache as initialised by `renderer_init` in `render.c` (`calloc`
zeroes the table and every image slot is set to `EGL_NO_IMAGE`). -/
def initCache : List CacheEntry := List.replicate EGL_CACHE_SIZE emptyEntry

/-! ## Output lifecycle (`wayland.c`, `process_output_lifecycle` in `main.c`)

A single output is modelled; the compositor and EGL calls are oracles. -/

/-- The `OutputState` enum from `wlvideo.h`. -/
inductive OutState where
  | unconfigured
  | ready
  | waitingCallback
  | pendingDestroy
  | pendingRecreate
  | defunct
deriving DecidableEq, Repr

/-- The fields of `struct Output` that the modelled code touches; resource
pointers are modelled as presence booleans and the name as a non-emptiness
flag. -/
structure OutputM where
  state : OutState
  nameNonempty : Bool
  width : Int
  height : Int
  configuredW : Int
  configuredH : Int
  hasWlSurface : Bool
  hasLayerSurface : Bool
  hasEglWindow : Bool
  hasEglSurface : Bool
  hasFrameCallback : Bool
deriving DecidableEq, Repr

/-- Observable side effects of `layer_configure` besides the output record:
the mandatory `ack_configure` and the EGL window resize. -/
inductive CfgEffect where
  | ackConfigure
  | eglResize
deriving DecidableEq, Repr

/-- Translation of `layer_configure` from `wayland.c`: the configure is
always acked; destruction/defunct states ignore it; a configure that is
neither a size change nor the first configure is ignored; otherwise the
dimensions are stored, the EGL window resized if present, and the first
configure moves the output to `OUT_READY`. -/
def layer_configure (o : OutputM) (w h : Int) : OutputM × List CfgEffect :=
  if o.state = OutState.pendingDestroy ∨ o.state = OutState.pendingRecreate ∨
     o.state = OutState.defunct then
    (o, [CfgEffect.ackConfigure])
  else
    let sizeChanged := o.configuredW ≠ w ∨ o.configuredH ≠ h
    let firstConfigure := o.state = OutState.unconfigured
    if ¬sizeChanged ∧ ¬firstConfigure then (o, [CfgEffect.ackConfigure])
    else
      let o1 := { o with configuredW := w, configuredH := h, width := w, height := h }
      let eff := if o1.hasEglWindow
                 then [CfgEffect.ackConfigure, CfgEffect.eglResize]
                 else [CfgEffect.ackConfigure]
      let o2 := if firstConfigure then { o1 with state := OutState.ready } else o1
      (o2, eff)

/-- Translation of `wayland_destroy_surface` from `wayland.c`: all Wayland
and EGL window resources are torn down, configured dimensions are reset and
the output moves to `OUT_PENDING_RECREATE`. -/
def wayland_destroy_surface (o : OutputM) : OutputM :=
  { o with
    hasFrameCallback := false
    hasLayerSurface := false
    hasWlSurface := false
    hasEglWindow := false
    hasEglSurface := false
    configuredW := 0
    configuredH := 0
    state := OutState.pendingRecreate }

/-- Translation of `wayland_create_surface` from `wayland.c`: refused
outside `OUT_UNCONFIGURED`/`OUT_PENDING_RECREATE`; the two compositor
allocations are oracles; on success the configured dimensions are reset and
the output moves to `OUT_UNCONFIGURED` awaiting its first configure. -/
def wayland_create_surface (o : OutputM) (wlOk layerOk : Bool) : Bool × OutputM :=
  if o.state ≠ OutState.unconfigured ∧ o.state ≠ OutState.pendingRecreate then (false, o)
  else if !wlOk then (false, o)
  else if !layerOk then (false, { o with hasWlSurface := false })
  else
    (true,
     { o with
       hasWlSurface := true
       hasLayerSurface := true
       configuredW := 0
       configuredH := 0
       state := OutState.unconfigured })

/-- Oracle outcomes for one `process_output_lifecycle` pass over one
output: the compositor allocations, the configure event (if any) delivered
during the roundtrip, both `renderer_create_output` outcomes, whether the
renderer exists, and whether the output matches the configured filter. -/
structure LifeOracle where
  wlOk : Bool
  layerOk : Bool
  roundtripConfigure : Option (Int × Int)
  eglCreateOk : Bool
  reattachOk : Bool
  rendererPresent : Bool
  matchesFilter : Bool
deriving DecidableEq, Repr

/-- First block of `process_output_lifecycle` in `main.c`: deferred
destruction of a `OUT_PENDING_DESTROY` output. -/
def lifecycle_destroy (o : OutputM) : OutputM :=
  if o.state = OutState.pendingDestroy then wayland_destroy_surface o else o

/-- Second block of `process_output_lifecycle`: a complete
(`width > 0`, `height > 0`, named, filter-matching) `OUT_PENDING_RECREATE`
output gets a new Wayland surface (a failed creation is simply retried on a
later tick), the roundtrip may deliver a configure event, and only a
configured (`OUT_READY`) output gets an EGL surface, a failure tearing the
Wayland surface down again for a later retry. -/
def lifecycle_recreate (o : OutputM) (orc : LifeOracle) : OutputM :=
  if o.state = OutState.pendingRecreate ∧ o.width > 0 ∧ o.height > 0 ∧
     o.nameNonempty ∧ orc.matchesFilter then
    let c := wayland_create_surface o orc.wlOk orc.layerOk
    if c.1 then
      let od := match orc.roundtripConfigure with
                | some wh => (layer_configure c.2 wh.1 wh.2).1
                | Option.none => c.2
      if od.state = OutState.ready then
        if orc.rendererPresent ∧ orc.eglCreateOk then
          { od with hasEglWindow := true, hasEglSurface := true }
        else wayland_destroy_surface od
      else od
    else c.2
  else o

/-- Third block of `process_output_lifecycle`: a ready/waiting output with a
Wayland surface but no EGL surface gets the EGL surface reattached, a
failure tearing the Wayland surface down for recreation. -/
def lifecycle_reattach (o : OutputM) (orc : LifeOracle) : OutputM :=
  if o.hasWlSurface ∧ orc.rendererPresent ∧
     (o.state = OutState.ready ∨ o.state = OutState.waitingCallback) ∧
     ¬o.hasEglSurface then
    if orc.reattachOk then { o with hasEglWindow := true, hasEglSurface := true }
    else wayland_destroy_surface o
  else o

/-- One pass of `process_output_lifecycle` over one output: the three
blocks in source order. -/
def process_output_lifecycle (o : OutputM) (orc : LifeOracle) : OutputM :=
  lifecycle_reattach (lifecycle_recreate (lifecycle_destroy o) orc) orc

/-! ## Playback clock and scheduler (main loop of `main.c`)

Wall-clock times and the frame duration are rationals.  The C cast
`(int64_t)(elapsed / frame_duration)` truncates toward zero, modelled by
`cTrunc`.  Decoding is an oracle: each iteration of the catch-up loop
consumes one `DecEvent` (a successful decode, hardware or software, or a
`decoder_get_frame` failure together with the seek outcome used on the
looping path).  Running out of events stops the recursion with the state
reached so far, modelling a partial observation of the loop. -/

/-- Truncation toward zero of a rational, the semantics of the C cast
`(int64_t)` applied to a nonnegative-or-negative double quotient. -/
def cTrunc (q : Rat) : Int := if 0 ≤ q then ⌊q⌋ else -⌊-q⌋

/-- The scheduler's target frame index at time `t`:
`(int64_t)((t - start_time) / frame_duration)` from `main.c`. -/
def targetAt (startTime t d : Rat) : Int := cTrunc ((t - startTime) / d)

/-- Maximum frames decoded per tick, `max_skip` in `main.c`. -/
def max_skip : Nat := 5

/-- Clock reset threshold, `reset_threshold = max_skip * 2` in `main.c`. -/
def reset_threshold : Int := 10

/-- One outcome of `decoder_get_frame` as observed by the catch-up loop:
either a decoded frame (hardware frames carry the identifier of the
DMA-BUF handle set just opened by the export) or a failure, together with
the outcome `decoder_seek_start` would report on the looping path. -/
inductive DecEvent where
  | frameOk (isHw : Bool) (handle : Nat)
  | decFail (seekOk : Bool)

/-- State of the catch-up loop in `main.c` (lines 542-584): the clock, the
loop-local `target` and `decoded` counters, the `running`/`have_frame`
flags, the handle set owned by the current frame (`some h` exactly when
`have_frame && frame.type == FRAME_HW` and its descriptors are not yet
closed), the multiset of all open DMA-BUF handle sets, and the number of
`renderer_clear_cache` calls made on loop restarts. -/
structure TickState where
  startTime : Rat
  displayed : Int
  target : Int
  decoded : Nat
  running : Bool
  haveFrame : Bool
  curHandle : Option Nat
  openHandles : List Nat
  cacheClears : Nat

/-- The body of one iteration of the catch-up loop: a decoded frame is
adopted (opening its handles if it is a hardware frame) and the indices
advance; a frame that is still behind the target is skipped and its
handles closed immediately; a decode failure either restarts the stream
(seek, cache clear, clock reset to `t`, `displayed = -1`, `target = 0`) or
stops the scheduler. -/
def catchupStep (t : Rat) (cfgLoop : Bool) (e : DecEvent) (s : TickState) : TickState :=
  match e with
  | DecEvent.frameOk isHw h =>
    let s1 : TickState :=
      { s with
        haveFrame := true
        curHandle := if isHw then some h else Option.none
        openHandles := if isHw then h :: s.openHandles else s.openHandles
        displayed := s.displayed + 1
        decoded := s.decoded + 1 }
    if s1.displayed ≥ s1.target then s1
    else if isHw then
      { s1 with curHandle := Option.none, openHandles := s1.openHandles.erase h }
    else s1
  | DecEvent.decFail seekOk =>
    if cfgLoop then
      if !seekOk then { s with running := false }
      else
        { s with
          cacheClears := s.cacheClears + 1
          startTime := t
          displayed := -1
          target := 0 }
    else { s with running := false }

/-- The catch-up loop `while (displayed_frame < target && decoded < max_skip)`
of `main.c`, with `break` modelled through the `running` flag. -/
def catchup (t : Rat) (cfgLoop : Bool) : List DecEvent → TickState → TickState
  | [], s => s
  | e :: rest, s =>
    if s.running ∧ s.displayed < s.target ∧ s.decoded < max_skip then
      catchup t cfgLoop rest (catchupStep t cfgLoop e s)
    else s

/-- The scheduler state carried between ticks. -/
structure SchedState where
  startTime : Rat
  displayed : Int
  running : Bool
  haveFrame : Bool
  curHandle : Option Nat
  openHandles : List Nat

/-- Closing the current frame's DMA-BUF handles
(`decoder_close_dmabuf(&frame.hw.dmabuf)` guarded by
`have_frame && frame.type == FRAME_HW`). -/
def closeCurrent (s : SchedState) : SchedState :=
  match s.curHandle with
  | some h => { s with curHandle := Option.none, openHandles := s.openHandles.erase h }
  | Option.none => s

/-- Result of one scheduler tick. -/
structure TickOut where
  s : SchedState
  decoded : Nat
  finalTarget : Int
  didReset : Bool

/-- The close-then-catch-up part of a scheduler tick: the previous
displayed frame's DMA-BUF handles are closed
(`decoder_close_dmabuf` before the loop), then the bounded catch-up loop
runs from `decoded = 0` against the computed target. -/
def tickCore (t d : Rat) (cfgLoop : Bool) (evts : List DecEvent) (s : SchedState) :
    TickState :=
  catchup t cfgLoop evts
    { startTime := (closeCurrent s).startTime
      displayed := (closeCurrent s).displayed
      target := targetAt s.startTime t d
      decoded := 0
      running := (closeCurrent s).running
      haveFrame := (closeCurrent s).haveFrame
      curHandle := (closeCurrent s).curHandle
      openHandles := (closeCurrent s).openHandles
      cacheClears := 0 }

/-- One scheduler tick from the main loop of `main.c` (lines 538-585): the
target index is computed from the clock; if it exceeds the displayed index
the previous frame's handles are closed, the bounded catch-up loop runs,
and if the remaining shortfall exceeds `reset_threshold` the start time is
reset to `t - displayed_frame * frame_duration`. -/
def schedTick (t d : Rat) (cfgLoop : Bool) (evts : List DecEvent) (s : SchedState) :
    TickOut :=
  if targetAt s.startTime t d > s.displayed then
    if (tickCore t d cfgLoop evts s).target -
        (tickCore t d cfgLoop evts s).displayed > reset_threshold then
      { s := { startTime := t - ((tickCore t d cfgLoop evts s).displayed : Rat) * d
               displayed := (tickCore t d cfgLoop evts s).displayed
               running := (tickCore t d cfgLoop evts s).running
               haveFrame := (tickCore t d cfgLoop evts s).haveFrame
               curHandle := (tickCore t d cfgLoop evts s).curHandle
               openHandles := (tickCore t d cfgLoop evts s).openHandles }
        decoded := (tickCore t d cfgLoop evts s).decoded
        finalTarget := (tickCore t d cfgLoop evts s).target
        didReset := true }
    else
      { s := { startTime := (tickCore t d cfgLoop evts s).startTime
               displayed := (tickCore t d cfgLoop evts s).displayed
               running := (tickCore t d cfgLoop evts s).running
               haveFrame := (tickCore t d cfgLoop evts s).haveFrame
               curHandle := (tickCore t d cfgLoop evts s).curHandle
               openHandles := (tickCore t d cfgLoop evts s).openHandles }
        decoded := (tickCore t d cfgLoop evts s).decoded
        finalTarget := (tickCore t d cfgLoop evts s).target
        didReset := false }
  else
    { s := s, decoded := 0, finalTarget := targetAt s.startTime t d, didReset := false }

/-- The cleanup path of `main.c` (lines 631-632): the still-held frame's
handles are closed before the subsystems are destroyed. -/
def cleanupClose (s : SchedState) : SchedState := closeCurrent s

/-- The handle-ownership invariant between ticks: the open DMA-BUF handle
sets are exactly those of the currently displayed hardware frame. -/
def handleInv (s : SchedState) : Prop :=
  s.openHandles = (match s.curHandle with
                   | some h => [h]
                   | Option.none => [])

/-! ## Theorems -/

/-- C8: delivering a configure event whose dimensions equal the already
configured size to an `OUT_READY` output changes nothing: the output record
(state, stored dimensions, graphics resources) is returned unchanged and the
only effect is the protocol-mandated `ack_configure`, so delivering the
duplicate event is equivalent to not delivering it. -/
theorem C8_duplicate_configure_ignored (o : OutputM) (w h : Int)
    (hstate : o.state = OutState.ready) (hw : o.configuredW = w)
    (hh : o.configuredH = h) :
    layer_configure o w h = (o, [CfgEffect.ackConfigure]) := by
  unfold layer_configure
  rw [hstate]
  simp [hw, hh]

/-- Witness for C8 at a concrete 1920 by 1080 output. -/
theorem C8_duplicate_configure_ignored_witness :
    ({ state := OutState.ready, nameNonempty := true, width := 1920, height := 1080,
       configuredW := 1920, configuredH := 1080, hasWlSurface := true,
       hasLayerSurface := true, hasEglWindow := true, hasEglSurface := true,
       hasFrameCallback := false } : OutputM).state = OutState.ready ∧
    layer_configure
      { state := OutState.ready, nameNonempty := true, width := 1920, height := 1080,
        configuredW := 1920, configuredH := 1080, hasWlSurface := true,
        hasLayerSurface := true, hasEglWindow := true, hasEglSurface := true,
        hasFrameCallback := false } 1920 1080 =
      ({ state := OutState.ready, nameNonempty := true, width := 1920, height := 1080,
         configuredW := 1920, configuredH := 1080, hasWlSurface := true,
         hasLayerSurface := true, hasEglWindow := true, hasEglSurface := true,
         hasFrameCallback := false }, [CfgEffect.ackConfigure]) :=
  ⟨rfl, C8_duplicate_configure_ignored _ 1920 1080 rfl rfl rfl⟩

/-- A concrete output awaiting recreation (complete size and name). -/
def recreatePending : OutputM :=
  { state := OutState.pendingRecreate, nameNonempty := true, width := 1920,
    height := 1080, configuredW := 0, configuredH := 0, hasWlSurface := false,
    hasLayerSurface := false, hasEglWindow := false, hasEglSurface := false,
    hasFrameCallback := false }

/-- An oracle on which every recreation step fails, on every tick. -/
def failAllOracle : LifeOracle :=
  { wlOk := false, layerOk := false, roundtripConfigure := Option.none,
    eglCreateOk := false, reattachOk := false, rendererPresent := true,
    matchesFilter := true }

/-- An oracle on which the Wayland surface is recreated and configured but
the EGL surface creation fails. -/
def eglFailOracle : LifeOracle :=
  { wlOk := true, layerOk := true, roundtripConfigure := some (1920, 1080),
    eglCreateOk := false, reattachOk := false, rendererPresent := true,
    matchesFilter := true }

/-- C6 counterexample: recreation failures never move an output to
`OUT_DEFUNCT`.  A pending-recreate output whose surface recreation fails on
every tick (the most unrecoverable failure the code can observe) is still in
`OUT_PENDING_RECREATE` after three lifecycle passes, and a pass in which the
EGL surface creation fails also leaves it in `OUT_PENDING_RECREATE`; no
transition in `src/` ever assigns `OUT_DEFUNCT`. -/
theorem C6_counterexample_no_defunct_transition :
    process_output_lifecycle (process_output_lifecycle
      (process_output_lifecycle recreatePending failAllOracle) failAllOracle)
      failAllOracle = recreatePending ∧
    (process_output_lifecycle recreatePending eglFailOracle).state =
      OutState.pendingRecreate ∧
    recreatePending.state ≠ OutState.defunct := by
  refine ⟨by decide, by decide, by decide⟩

lemma layer_configure_state (o : OutputM) (w h : Int) :
    ((layer_configure o w h).1).state = o.state ∨
      ((layer_configure o w h).1).state = OutState.ready := by
  by_cases h1 : (o.state = OutState.pendingDestroy ∨ o.state = OutState.pendingRecreate ∨
      o.state = OutState.defunct)
  · simp [layer_configure, h1]
  · by_cases h2 : (¬(o.configuredW ≠ w ∨ o.configuredH ≠ h) ∧
        ¬o.state = OutState.unconfigured)
    · simp [layer_configure, h1, h2]
    · by_cases h3 : o.state = OutState.unconfigured
      · simp [layer_configure, h1, h2, h3]
      · have hsz : ¬(o.configuredW = w ∧ o.configuredH = h) := by
          intro hc
          exact h2 ⟨by simp [hc.1, hc.2], h3⟩
        simp [layer_configure, h1, h2, h3, hsz]

lemma wayland_create_surface_state (o : OutputM) (a b : Bool) :
    ((wayland_create_surface o a b).2).state = o.state ∨
      ((wayland_create_surface o a b).2).state = OutState.unconfigured := by
  by_cases h1 : (o.state ≠ OutState.unconfigured ∧ o.state ≠ OutState.pendingRecreate)
  · simp [wayland_create_surface, h1]
  · by_cases h2 : a
    · by_cases h3 : b
      · simp [wayland_create_surface, h1, h2, h3]
      · simp [wayland_create_surface, h1, h2, h3]
    · simp [wayland_create_surface, h1, h2]

lemma lifecycle_destroy_not_defunct (o : OutputM) (h : o.state ≠ OutState.defunct) :
    (lifecycle_destroy o).state ≠ OutState.defunct := by
  unfold lifecycle_destroy
  split_ifs
  · simp [wayland_destroy_surface]
  · exact h

lemma lifecycle_recreate_not_defunct (o : OutputM) (orc : LifeOracle)
    (h : o.state ≠ OutState.defunct) :
    (lifecycle_recreate o orc).state ≠ OutState.defunct := by
  unfold lifecycle_recreate
  by_cases hg : (o.state = OutState.pendingRecreate ∧ o.width > 0 ∧ o.height > 0 ∧
      o.nameNonempty = true ∧ orc.matchesFilter = true)
  · rw [if_pos hg]
    rcases hcs : wayland_create_surface o orc.wlOk orc.layerOk with ⟨ok, oc⟩
    have hocs : oc.state = o.state ∨ oc.state = OutState.unconfigured := by
      have := wayland_create_surface_state o orc.wlOk orc.layerOk
      rw [hcs] at this
      exact this
    have hocnd : oc.state ≠ OutState.defunct := by
      rcases hocs with h2 | h2 <;> rw [h2]
      · exact h
      · simp
    simp only [hcs]
    cases ok with
    | false => simpa using hocnd
    | true =>
      simp only [if_true]
      cases hrc : orc.roundtripConfigure with
      | none =>
        simp only []
        by_cases hready : oc.state = OutState.ready
        · by_cases hegl : (orc.rendererPresent = true ∧ orc.eglCreateOk = true)
          · simp [hready, hegl]
          · simp [hready, hegl, wayland_destroy_surface]
        · rw [if_neg hready]
          exact hocnd
      | some wh =>
        simp only []
        have hlcnd : ((layer_configure oc wh.1 wh.2).1).state ≠ OutState.defunct := by
          rcases layer_configure_state oc wh.1 wh.2 with h2 | h2 <;> rw [h2]
          · exact hocnd
          · simp
        by_cases hready : ((layer_configure oc wh.1 wh.2).1).state = OutState.ready
        · by_cases hegl : (orc.rendererPresent = true ∧ orc.eglCreateOk = true)
          · simp [hready, hegl]
          · simp [hready, hegl, wayland_destroy_surface]
        · rw [if_neg hready]
          exact hlcnd
  · rw [if_neg hg]
    exact h

lemma lifecycle_reattach_not_defunct (o : OutputM) (orc : LifeOracle)
    (h : o.state ≠ OutState.defunct) :
    (lifecycle_reattach o orc).state ≠ OutState.defunct := by
  unfold lifecycle_reattach
  by_cases hg : (o.hasWlSurface = true ∧ orc.rendererPresent = true ∧
      (o.state = OutState.ready ∨ o.state = OutState.waitingCallback) ∧
      ¬o.hasEglSurface = true)
  · rw [if_pos hg]
    by_cases hro : orc.reattachOk = true
    · simp [hro]
      exact h
    · simp [hro, wayland_destroy_surface]
  · rw [if_neg hg]
    exact h

/-- C6 as amended: a failed surface recreation leaves the output in
`OUT_PENDING_RECREATE`, to be retried by `process_output_lifecycle` on a
later scheduler tick, and never permanently fails it; `OUT_DEFUNCT` is
terminal in the sense that a defunct output is never touched or recreated,
but no recreation failure (nor any other transition in the sources) ever
enters it. -/
theorem C6_recreation_retries_defunct_unreachable (o : OutputM) (orc : LifeOracle)
    (hnd : o.state ≠ OutState.defunct) :
    (process_output_lifecycle o orc).state ≠ OutState.defunct ∧
    (∀ o2 : OutputM, o2.state = OutState.defunct →
      process_output_lifecycle o2 orc = o2) ∧
    (o.state = OutState.pendingRecreate → orc.wlOk = false →
      (process_output_lifecycle o orc).state = OutState.pendingRecreate) := by
  refine ⟨?_, ?_, ?_⟩
  · exact lifecycle_reattach_not_defunct _ _
      (lifecycle_recreate_not_defunct _ _ (lifecycle_destroy_not_defunct _ hnd))
  · intro o2 h2
    unfold process_output_lifecycle lifecycle_destroy lifecycle_recreate lifecycle_reattach
    simp [h2]
  · intro hpr hwl
    have hd : lifecycle_destroy o = o := by
      unfold lifecycle_destroy
      rw [hpr]
      simp
    have hr : lifecycle_recreate o orc = o := by
      unfold lifecycle_recreate
      by_cases hg : (o.state = OutState.pendingRecreate ∧ o.width > 0 ∧ o.height > 0 ∧
          o.nameNonempty = true ∧ orc.matchesFilter = true)
      · rw [if_pos hg]
        simp [wayland_create_surface, hpr, hwl]
      · rw [if_neg hg]
    have ha : (lifecycle_reattach o orc).state = OutState.pendingRecreate := by
      unfold lifecycle_reattach
      by_cases hg : (o.hasWlSurface = true ∧ orc.rendererPresent = true ∧
          (o.state = OutState.ready ∨ o.state = OutState.waitingCallback) ∧
          ¬o.hasEglSurface = true)
      · rcases hg with ⟨-, -, hst, -⟩
        rcases hst with hst | hst <;> rw [hpr] at hst <;> exact absurd hst (by decide)
      · rw [if_neg hg]
        exact hpr
    unfold process_output_lifecycle
    rw [hd, hr]
    exact ha

/-- Witness for the amended C6 theorem at a concrete output and oracle. -/
theorem C6_recreation_retries_defunct_unreachable_witness :
    recreatePending.state ≠ OutState.defunct ∧
    ((process_output_lifecycle recreatePending failAllOracle).state ≠ OutState.defunct ∧
     (∀ o2 : OutputM, o2.state = OutState.defunct →
       process_output_lifecycle o2 failAllOracle = o2) ∧
     (recreatePending.state = OutState.pendingRecreate → failAllOracle.wlOk = false →
       (process_output_lifecycle recreatePending failAllOracle).state =
         OutState.pendingRecreate)) :=
  ⟨by decide,
   C6_recreation_retries_defunct_unreachable recreatePending failAllOracle (by decide)⟩

lemma getD_mem {A : Type _} (l : List A) (dflt : A) (i : Nat) (h : i < l.length) :
    l.getD i dflt ∈ l := by
  rw [List.getD_eq_getElem _ _ h]
  exact List.getElem_mem h

lemma getD_mem_take {A : Type _} (l : List A) (dflt : A) (i j : Nat)
    (hij : i < j) (h : i < l.length) : l.getD i dflt ∈ l.take j := by
  have h2 : i < (l.take j).length := by
    rw [List.length_take]
    exact Nat.lt_min.mpr ⟨hij, h⟩
  have heq : (l.take j).getD i dflt = l.getD i dflt := by
    rw [List.getD_eq_getElem _ _ h2, List.getD_eq_getElem _ _ h]
    simp
  rw [← heq]
  exact getD_mem _ _ _ h2

/-- C7: in every successful zero-copy export, each underlying object's
descriptor is taken into the frame's plane array exactly once, by the first
plane that references the object; every later plane referencing the same
object receives a duplicated descriptor; and exactly the objects referenced
by no plane are closed immediately, so no object descriptor is leaked or
double-owned.  The first conjunct characterises the descriptor stored by
plane `i`; the second characterises the closed set; the third says a closed
object's descriptor is not owned by any plane; the fourth says ownership is
taken at most once. -/
theorem C7_export_fd_ownership (d : VADesc) :
    (∀ i, i < (d.planes.take 4).length →
      (((exportPlanes d).1.getD i hwDef).fd =
        (if ((d.planes.take 4).getD i vaDef).objectIndex < d.numObjects then
           if (((d.planes.take 4).take i).any fun q =>
                q.objectIndex == ((d.planes.take 4).getD i vaDef).objectIndex)
           then FdVal.dup ((d.planes.take 4).getD i vaDef).objectIndex
           else FdVal.orig ((d.planes.take 4).getD i vaDef).objectIndex
         else FdVal.invalid))) ∧
    (∀ o, o ∈ closedObjects d ↔
       o < d.numObjects ∧ ∀ p ∈ d.planes.take 4, p.objectIndex ≠ o) ∧
    (∀ o, o ∈ closedObjects d →
       ∀ hp ∈ (exportPlanes d).1, hp.fd ≠ FdVal.orig o ∧ hp.fd ≠ FdVal.dup o) ∧
    (∀ o i j, i < (d.planes.take 4).length → j < (d.planes.take 4).length → i ≠ j →
       ¬(((exportPlanes d).1.getD i hwDef).fd = FdVal.orig o ∧
         ((exportPlanes d).1.getD j hwDef).fd = FdVal.orig o)) := by
  have hfd : ∀ i, i < (d.planes.take 4).length →
      (((exportPlanes d).1.getD i hwDef).fd =
        (if ((d.planes.take 4).getD i vaDef).objectIndex < d.numObjects then
           if (((d.planes.take 4).take i).any fun q =>
                q.objectIndex == ((d.planes.take 4).getD i vaDef).objectIndex)
           then FdVal.dup ((d.planes.take 4).getD i vaDef).objectIndex
           else FdVal.orig ((d.planes.take 4).getD i vaDef).objectIndex
         else FdVal.invalid)) := by
    intro i hi
    have := exportLoop_fd d.numObjects d.objModifier (d.planes.take 4)
      (fun _ => false) i hi
    simpa [exportPlanes] using this
  have htk : ∀ o, (exportPlanes d).2 o =
      (decide (o < d.numObjects) && (d.planes.take 4).any fun p => p.objectIndex == o) := by
    intro o
    have := exportLoop_taken d.numObjects d.objModifier (d.planes.take 4)
      (fun _ => false) o
    simpa [exportPlanes] using this
  have hclosed : ∀ o, o ∈ closedObjects d ↔
      o < d.numObjects ∧ ∀ p ∈ d.planes.take 4, p.objectIndex ≠ o := by
    intro o
    unfold closedObjects
    rw [List.mem_filter]
    rw [List.mem_range]
    constructor
    · rintro ⟨ho, hno⟩
      refine ⟨ho, ?_⟩
      rw [htk o] at hno
      simp [ho] at hno
      intro p hp
      exact hno p hp
    · rintro ⟨ho, hno⟩
      refine ⟨ho, ?_⟩
      rw [htk o]
      simp [ho]
      intro p hp
      exact hno p hp
  -- membership in the produced plane list yields an index
  have hmem : ∀ hp ∈ (exportPlanes d).1, ∃ i, ∃ hi : i < (d.planes.take 4).length,
      (exportPlanes d).1.getD i hwDef = hp := by
    intro hp hmemp
    rcases List.mem_iff_getElem.mp hmemp with ⟨i, hil, hie⟩
    have hlen : (exportPlanes d).1.length = (d.planes.take 4).length := by
      unfold exportPlanes
      exact exportLoop_length d.numObjects d.objModifier (d.planes.take 4) (fun _ => false)
    refine ⟨i, by omega, ?_⟩
    rw [List.getD_eq_getElem _ _ hil]
    exact hie
  -- fd = orig o or dup o forces the plane at that index to reference o
  have href : ∀ o i, ∀ hi : i < (d.planes.take 4).length,
      (((exportPlanes d).1.getD i hwDef).fd = FdVal.orig o ∨
       ((exportPlanes d).1.getD i hwDef).fd = FdVal.dup o) →
      ((d.planes.take 4).getD i vaDef).objectIndex = o ∧ o < d.numObjects := by
    intro o i hi hcase
    have h1 := hfd i hi
    by_cases hlt : ((d.planes.take 4).getD i vaDef).objectIndex < d.numObjects
    · rw [if_pos hlt] at h1
      by_cases hany : ((((d.planes.take 4).take i).any fun q =>
          q.objectIndex == ((d.planes.take 4).getD i vaDef).objectIndex) = true)
      · rw [if_pos hany] at h1
        rcases hcase with hc | hc <;> rw [hc] at h1
        · exact absurd h1.symm (by simp)
        · have : ((d.planes.take 4).getD i vaDef).objectIndex = o := by
            have := h1.symm
            injection this
          exact ⟨this, this ▸ hlt⟩
      · rw [if_neg hany] at h1
        rcases hcase with hc | hc <;> rw [hc] at h1
        · have : ((d.planes.take 4).getD i vaDef).objectIndex = o := by
            have := h1.symm
            injection this
          exact ⟨this, this ▸ hlt⟩
        · exact absurd h1.symm (by simp)
    · rw [if_neg hlt] at h1
      rcases hcase with hc | hc <;> rw [hc] at h1 <;> exact absurd h1.symm (by simp)
  refine ⟨hfd, hclosed, ?_, ?_⟩
  · intro o ho hp hmemp
    rcases hmem hp hmemp with ⟨i, hi, hie⟩
    rcases (hclosed o).mp ho with ⟨holt, hnoref⟩
    constructor
    · intro hfo
      have := href o i hi (Or.inl (by rw [hie]; exact hfo))
      have hpi : (d.planes.take 4).getD i vaDef ∈ d.planes.take 4 :=
        getD_mem _ _ _ hi
      exact hnoref _ hpi this.1
    · intro hfo
      have := href o i hi (Or.inr (by rw [hie]; exact hfo))
      have hpi : (d.planes.take 4).getD i vaDef ∈ d.planes.take 4 :=
        getD_mem _ _ _ hi
      exact hnoref _ hpi this.1
  · intro o i j hi hj hij ⟨hfi, hfj⟩
    -- with both planes holding the original descriptor, the later one must
    -- have seen the earlier reference and hold a duplicate instead
    rcases Nat.lt_or_ge i j with hlt | hge
    · have hrefi := href o i hi (Or.inl hfi)
      have h1 := hfd j hj
      have hrefj := href o j hj (Or.inl hfj)
      rw [if_pos (hrefj.1 ▸ hrefj.2)] at h1
      have hany : ((((d.planes.take 4).take j).any fun q =>
          q.objectIndex == ((d.planes.take 4).getD j vaDef).objectIndex) = true) := by
        rw [List.any_eq_true]
        refine ⟨(d.planes.take 4).getD i vaDef, ?_, ?_⟩
        · exact getD_mem_take _ _ _ _ hlt hi
        · rw [hrefi.1, hrefj.1]
          simp
      rw [if_pos hany] at h1
      rw [hfj] at h1
      exact absurd h1.symm (by simp)
    · have hlt2 : j < i := by omega
      have hrefj := href o j hj (Or.inl hfj)
      have h1 := hfd i hi
      have hrefi := href o i hi (Or.inl hfi)
      rw [if_pos (hrefi.1 ▸ hrefi.2)] at h1
      have hany : ((((d.planes.take 4).take i).any fun q =>
          q.objectIndex == ((d.planes.take 4).getD i vaDef).objectIndex) = true) := by
        rw [List.any_eq_true]
        refine ⟨(d.planes.take 4).getD j vaDef, ?_, ?_⟩
        · exact getD_mem_take _ _ _ _ hlt2 hj
        · rw [hrefj.1, hrefi.1]
          simp
      rw [if_pos hany] at h1
      rw [hfi] at h1
      exact absurd h1.symm (by simp)

/-- The cache validity invariant of C10: every entry with a nonzero surface
identity holds a successfully imported image. -/
def cacheInv (r : RendState) : Prop :=
  ∀ e ∈ r.cache, e.surfaceId ≠ 0 → e.image ≠ Option.none

lemma listInv_set {l : List CacheEntry} {i : Nat} {x : CacheEntry}
    (hl : ∀ e ∈ l, e.surfaceId ≠ 0 → e.image ≠ Option.none)
    (hx : x.surfaceId ≠ 0 → x.image ≠ Option.none) :
    ∀ e ∈ l.set i x, e.surfaceId ≠ 0 → e.image ≠ Option.none := by
  intro e he
  rcases List.mem_or_eq_of_mem_set he with h | h
  · exact hl e h
  · subst h
    exact hx

lemma render_dmabuf_cacheInv (r : RendState) (f : FrameM) (imp : Option Nat)
    (h : cacheInv r) : cacheInv (render_dmabuf r f imp).r := by
  unfold render_dmabuf
  by_cases h1 : (!r.hasDmabuf || !r.progExtOk) = true
  · rw [if_pos h1]
    exact h
  · rw [if_neg h1]
    by_cases h2 : (r.dmabufTested && !r.dmabufWorks) = true
    · rw [if_pos h2]
      exact h
    · rw [if_neg h2]
      cases hcg : r.cache.findIdx?
          (fun e => e.surfaceId == f.hw.surfaceId && e.generation == f.hw.generation) with
      | some i =>
        simp only [cache_get, hcg]
        -- cache hit in cache_get: the state is unchanged and the entry is real
        have hgood := (List.findIdx?_eq_some_iff_getElem.mp hcg).choose_spec
        have hilen : i < r.cache.length := (List.findIdx?_eq_some_iff_getElem.mp hcg).choose
        by_cases hni : (r.cache.getD i emptyEntry).image = Option.none
        · rw [if_pos hni]
          by_cases hmod : (f.hw.dmabuf.planes.any
              (fun p => !r.hasModifiers && effModifier p.modifier ≠ MOD_LINEAR)) = true
          · rw [if_pos hmod]
            intro e he
            exact listInv_set h (by intro hne; exact absurd rfl hne) e he
          · rw [if_neg hmod]
            cases imp with
            | none =>
              intro e he
              exact listInv_set h (by intro hne; exact absurd rfl hne) e he
            | some img =>
              by_cases ht : (!r.dmabufTested) = true
              · simp only [ht, if_true]
                intro e he
                exact listInv_set h (by intro _; simp) e he
              · simp only [ht, Bool.false_eq_true, if_false]
                intro e he
                exact listInv_set h (by intro _; simp) e he
        · rw [if_neg hni]
          intro e he
          refine listInv_set h ?_ e he
          intro _
          simpa using hni
      | none =>
        simp only [cache_get, hcg]
        by_cases hni :
            ((r.cache.set (lruIndex r.cache)
              { r.cache.getD (lruIndex r.cache) emptyEntry with
                image := Option.none, surfaceId := f.hw.surfaceId,
                generation := f.hw.generation }).getD (lruIndex r.cache) emptyEntry).image =
            Option.none
        · rw [if_pos hni]
          by_cases hmod : (f.hw.dmabuf.planes.any
              (fun p => !r.hasModifiers && effModifier p.modifier ≠ MOD_LINEAR)) = true
          · rw [if_pos hmod]
            intro e he
            rw [List.set_set] at he
            exact listInv_set h (by intro hne; exact absurd rfl hne) e he
          · rw [if_neg hmod]
            cases imp with
            | none =>
              intro e he
              rw [List.set_set] at he
              exact listInv_set h (by intro hne; exact absurd rfl hne) e he
            | some img =>
              by_cases ht : (!r.dmabufTested) = true
              · simp only [ht, if_true]
                intro e he
                rw [List.set_set] at he
                exact listInv_set h (by intro _; simp) e he
              · simp only [ht, Bool.false_eq_true, if_false]
                intro e he
                rw [List.set_set] at he
                exact listInv_set h (by intro _; simp) e he
        · rw [if_neg hni]
          -- the freshly claimed slot has no image: this branch cannot happen
          exfalso
          apply hni
          by_cases hlen : lruIndex r.cache < r.cache.length
          · have hlen2 : lruIndex r.cache <
                (r.cache.set (lruIndex r.cache)
                  { r.cache.getD (lruIndex r.cache) emptyEntry with
                    image := Option.none, surfaceId := f.hw.surfaceId,
                    generation := f.hw.generation }).length := by
              simpa using hlen
            rw [List.getD_eq_getElem _ _ hlen2]
            rw [List.getElem_set_self]
          · have : (r.cache.set (lruIndex r.cache)
                { r.cache.getD (lruIndex r.cache) emptyEntry with
                  image := Option.none, surfaceId := f.hw.surfaceId,
                  generation := f.hw.generation }).length ≤ lruIndex r.cache := by
              simpa using Nat.le_of_not_lt hlen
            rw [List.getD_eq_default _ _ this]
            rfl

lemma render_software_cache (r : RendState) (f : FrameM) :
    (render_software r f).cache = r.cache := by
  unfold render_software
  split_ifs <;> rfl

lemma cacheInv_cache_eq {r1 r2 : RendState} (he : r1.cache = r2.cache)
    (h : cacheInv r2) : cacheInv r1 := by
  unfold cacheInv at *
  rw [he]
  exact h

/-- C10: the renderer's cache never stores a failed import.  Provided every
entry with a nonzero surface identity holds an imported image before a
`renderer_draw` call, the same holds after it (failed or modifier-rejected
ones reset the claimed entry's identity to zero before returning); the
invariant holds for the freshly initialised cache and is preserved by
`renderer_clear_cache`, so it holds after every draw of a run. -/
theorem C10_cache_holds_imported_images (r : RendState) (f : FrameM) (tryD : Bool)
    (imp : Option Nat) (h : cacheInv r) :
    cacheInv (renderer_draw r f tryD imp).r ∧
    cacheInv { r with cache := initCache } ∧
    cacheInv (renderer_clear_cache r) := by
  refine ⟨?_, ?_, ?_⟩
  · unfold renderer_draw
    by_cases hd : (tryD && f.ftype == FrameType.hw) = true
    · simp only [hd, if_true]
      by_cases hsw : (!(render_dmabuf { r with frameCount := r.frameCount + 1 } f imp).drew
          && f.sw.available) = true
      · rw [if_pos hsw]
        exact cacheInv_cache_eq (render_software_cache _ _)
          (render_dmabuf_cacheInv _ f imp (cacheInv_cache_eq rfl h))
      · rw [if_neg hsw]
        exact render_dmabuf_cacheInv _ f imp (cacheInv_cache_eq rfl h)
    · simp only [hd, Bool.false_eq_true, if_false]
      by_cases hsw : ((!(false : Bool)) && f.sw.available) = true
      · rw [if_pos hsw]
        exact cacheInv_cache_eq (render_software_cache _ _) (cacheInv_cache_eq rfl h)
      · rw [if_neg hsw]
        exact cacheInv_cache_eq rfl h
  · intro e he
    rw [List.eq_of_mem_replicate he]
    intro h0
    exact absurd rfl h0
  · intro e he h0
    rcases List.mem_map.mp he with ⟨x, hx, hxe⟩
    subst hxe
    exact absurd rfl h0

/-- The renderer state right after `renderer_init` with every capability
present (used as concrete input of witnesses). -/
def rInit : RendState :=
  { hasDmabuf := true, hasModifiers := true, hasYuvHint := false, progExtOk := true,
    dmabufTested := false, dmabufWorks := false, cache := initCache, frameCount := 0,
    texAllocated := false, texW := 0, texH := 0 }

/-- The zero-initialised `Frame` variable of `main()` (`Frame frame = {0}`
with all DMA-BUF descriptors set to `-1`). -/
def frameZero : FrameM :=
  { ftype := FrameType.sw, pts := 0, width := 0, height := 0,
    colorspace := CSpace.bt601, colorRange := CRange.limited,
    hw := { surfaceId := 0, generation := 0,
            dmabuf := { planes := [], fourcc := 0, width := 0, height := 0 } },
    sw := { ringSlot := 0, pixelFormatNv12 := false, available := false } }

lemma cacheInv_rInit : cacheInv rInit := by
  intro e he
  rw [List.eq_of_mem_replicate he]
  intro h0
  exact absurd rfl h0

/-- Witness for C10 at the freshly initialised renderer. -/
theorem C10_cache_holds_imported_images_witness :
    cacheInv rInit ∧
    (cacheInv (renderer_draw rInit frameZero true (some 42)).r ∧
     cacheInv { rInit with cache := initCache } ∧
     cacheInv (renderer_clear_cache rInit)) :=
  ⟨cacheInv_rInit,
   C10_cache_holds_imported_images rInit frameZero true (some 42) cacheInv_rInit⟩

lemma render_software_flags (r : RendState) (f : FrameM) :
    (render_software r f).dmabufTested = r.dmabufTested ∧
    (render_software r f).dmabufWorks = r.dmabufWorks := by
  unfold render_software
  split_ifs <;> exact ⟨rfl, rfl⟩

lemma render_dmabuf_blocked (r : RendState) (f : FrameM) (imp : Option Nat)
    (hblock : (r.dmabufTested && !r.dmabufWorks) = true) :
    render_dmabuf r f imp = { drew := false, importAttempted := false, r := r } := by
  unfold render_dmabuf
  by_cases h1 : (!r.hasDmabuf || !r.progExtOk) = true
  · rw [if_pos h1]
  · rw [if_neg h1, if_pos hblock]

lemma render_dmabuf_flags (r : RendState) (f : FrameM) (imp : Option Nat) :
    ((render_dmabuf r f imp).importAttempted = true →
       (!r.hasDmabuf || !r.progExtOk) = false ∧
       (r.dmabufTested && !r.dmabufWorks) = false) ∧
    ((render_dmabuf r f imp).importAttempted = true →
       (render_dmabuf r f imp).drew = false →
       (render_dmabuf r f imp).r.dmabufTested = true ∧
       (render_dmabuf r f imp).r.dmabufWorks = false) := by
  unfold render_dmabuf
  by_cases h1 : (!r.hasDmabuf || !r.progExtOk) = true
  · rw [if_pos h1]
    exact ⟨(fun hc => by cases hc), (fun hc => by cases hc)⟩
  · rw [if_neg h1]
    by_cases h2 : (r.dmabufTested && !r.dmabufWorks) = true
    · rw [if_pos h2]
      exact ⟨(fun hc => by cases hc), (fun hc => by cases hc)⟩
    · rw [if_neg h2]
      have h1f : (!r.hasDmabuf || !r.progExtOk) = false := by
        cases hb : (!r.hasDmabuf || !r.progExtOk)
        · rfl
        · exact absurd hb h1
      have h2f : (r.dmabufTested && !r.dmabufWorks) = false := by
        cases hb : (r.dmabufTested && !r.dmabufWorks)
        · rfl
        · exact absurd hb h2
      by_cases hni : ((cache_get r f.hw.surfaceId f.hw.generation).2.cache.getD
          (cache_get r f.hw.surfaceId f.hw.generation).1 emptyEntry).image = Option.none
      · rw [if_pos hni]
        by_cases hmod : (f.hw.dmabuf.planes.any
            (fun p => !(cache_get r f.hw.surfaceId f.hw.generation).2.hasModifiers &&
              effModifier p.modifier ≠ MOD_LINEAR)) = true
        · rw [if_pos hmod]
          exact ⟨(fun hc => by cases hc), (fun hc => by cases hc)⟩
        · rw [if_neg hmod]
          cases imp with
          | none => exact ⟨fun _ => ⟨h1f, h2f⟩, fun _ _ => ⟨rfl, rfl⟩⟩
          | some img =>
            by_cases ht : (!(cache_get r f.hw.surfaceId f.hw.generation).2.dmabufTested) = true
            · simp only [ht, if_true]
              exact ⟨(fun _ => ⟨h1f, h2f⟩), (fun _ hc => by cases hc)⟩
            · simp only [ht, Bool.false_eq_true, if_false]
              exact ⟨(fun _ => ⟨h1f, h2f⟩), (fun _ hc => by cases hc)⟩
      · rw [if_neg hni]
        exact ⟨(fun hc => by cases hc), (fun hc => by cases hc)⟩

/-- The zero-copy stage of `renderer_draw` (the `dmabuf_ok` computation),
split out for reasoning. -/
def drawAux (r : RendState) (f : FrameM) (tryD : Bool) (imp : Option Nat) : DrawOut :=
  if tryD && f.ftype == FrameType.hw
  then render_dmabuf { r with frameCount := r.frameCount + 1 } f imp
  else { drew := false, importAttempted := false,
         r := { r with frameCount := r.frameCount + 1 } }

lemma renderer_draw_eq (r : RendState) (f : FrameM) (tryD : Bool) (imp : Option Nat) :
    renderer_draw r f tryD imp =
      (if !(drawAux r f tryD imp).drew && f.sw.available then
         { ok := (drawAux r f tryD imp).drew
           extDrew := (drawAux r f tryD imp).drew
           swDrew := true
           importAttempted := (drawAux r f tryD imp).importAttempted
           r := render_software (drawAux r f tryD imp).r f }
       else
         { ok := (drawAux r f tryD imp).drew
           extDrew := (drawAux r f tryD imp).drew
           swDrew := false
           importAttempted := (drawAux r f tryD imp).importAttempted
           r := (drawAux r f tryD imp).r }) := rfl

lemma renderer_draw_ok (r : RendState) (f : FrameM) (tryD : Bool) (imp : Option Nat) :
    (renderer_draw r f tryD imp).ok = (drawAux r f tryD imp).drew := by
  rw [renderer_draw_eq]
  split <;> rfl

lemma renderer_draw_extDrew (r : RendState) (f : FrameM) (tryD : Bool) (imp : Option Nat) :
    (renderer_draw r f tryD imp).extDrew = (drawAux r f tryD imp).drew := by
  rw [renderer_draw_eq]
  split <;> rfl

lemma renderer_draw_attempted (r : RendState) (f : FrameM) (tryD : Bool) (imp : Option Nat) :
    (renderer_draw r f tryD imp).importAttempted =
      (drawAux r f tryD imp).importAttempted := by
  rw [renderer_draw_eq]
  split <;> rfl

lemma renderer_draw_swDrew (r : RendState) (f : FrameM) (tryD : Bool) (imp : Option Nat) :
    (renderer_draw r f tryD imp).swDrew =
      (!(drawAux r f tryD imp).drew && f.sw.available) := by
  rw [renderer_draw_eq]
  split
  · next hc => rw [hc]
  · next hc =>
    cases hb : (!(drawAux r f tryD imp).drew && f.sw.available)
    · rfl
    · exact absurd hb hc

lemma renderer_draw_rflags (r : RendState) (f : FrameM) (tryD : Bool) (imp : Option Nat) :
    (renderer_draw r f tryD imp).r.dmabufTested =
      (drawAux r f tryD imp).r.dmabufTested ∧
    (renderer_draw r f tryD imp).r.dmabufWorks =
      (drawAux r f tryD imp).r.dmabufWorks := by
  rw [renderer_draw_eq]
  split
  · exact ⟨(render_software_flags _ _).1, (render_software_flags _ _).2⟩
  · exact ⟨rfl, rfl⟩

lemma cache_get_fields (r : RendState) (id gen : Nat) :
    ((cache_get r id gen).2).hasModifiers = r.hasModifiers ∧
    ((cache_get r id gen).2).dmabufTested = r.dmabufTested ∧
    ((cache_get r id gen).2).dmabufWorks = r.dmabufWorks := by
  unfold cache_get
  cases hcg : r.cache.findIdx?
      (fun e => e.surfaceId == id && e.generation == gen) with
  | some i => exact ⟨rfl, rfl, rfl⟩
  | none => exact ⟨rfl, rfl, rfl⟩

/-- The claimed cache entry for the frame's surface carries no image yet
(a cache miss, or a hit on a not-yet-imported entry). -/
def claimedEntryEmpty (r : RendState) (f : FrameM) : Prop :=
  ((cache_get r f.hw.surfaceId f.hw.generation).2.cache.getD
    (cache_get r f.hw.surfaceId f.hw.generation).1 emptyEntry).image = Option.none

/-- C5: `renderer_draw` attempts the zero-copy import only when it is
requested, the frame carries a GPU-surface payload, and zero-copy import is
not already proven unsupported; its return value is true exactly when the
zero-copy path drew; when the zero-copy path did not draw and a CPU copy is
available, the planar software-upload path draws instead; once import is
proven unsupported no draw ever attempts an import again and the flags stay
proven-unsupported; any actually attempted import that fails marks import
proven unsupported; and a non-trivial modifier without backend modifier
support is rejected without attempting the import, likewise marking import
proven unsupported. -/
theorem C5_draw_path_selection (r : RendState) (f : FrameM) (tryD : Bool)
    (imp : Option Nat) :
    ((renderer_draw r f tryD imp).importAttempted = true →
       tryD = true ∧ f.ftype = FrameType.hw ∧
       ¬(r.dmabufTested = true ∧ r.dmabufWorks = false)) ∧
    ((renderer_draw r f tryD imp).ok = (renderer_draw r f tryD imp).extDrew) ∧
    ((renderer_draw r f tryD imp).ok = false → f.sw.available = true →
       (renderer_draw r f tryD imp).swDrew = true) ∧
    (r.dmabufTested = true → r.dmabufWorks = false →
       (renderer_draw r f tryD imp).importAttempted = false ∧
       (renderer_draw r f tryD imp).ok = false ∧
       (renderer_draw r f tryD imp).r.dmabufTested = true ∧
       (renderer_draw r f tryD imp).r.dmabufWorks = false) ∧
    ((renderer_draw r f tryD imp).importAttempted = true →
       (renderer_draw r f tryD imp).ok = false →
       (renderer_draw r f tryD imp).r.dmabufTested = true ∧
       (renderer_draw r f tryD imp).r.dmabufWorks = false) ∧
    (tryD = true → f.ftype = FrameType.hw → r.hasDmabuf = true → r.progExtOk = true →
       ¬(r.dmabufTested = true ∧ r.dmabufWorks = false) →
       claimedEntryEmpty { r with frameCount := r.frameCount + 1 } f →
       r.hasModifiers = false →
       (f.hw.dmabuf.planes.any fun p => effModifier p.modifier ≠ MOD_LINEAR) = true →
       (renderer_draw r f tryD imp).importAttempted = false ∧
       (renderer_draw r f tryD imp).ok = false ∧
       (renderer_draw r f tryD imp).r.dmabufTested = true ∧
       (renderer_draw r f tryD imp).r.dmabufWorks = false) := by
  refine ⟨?_, renderer_draw_ok r f tryD imp ▸ (renderer_draw_extDrew r f tryD imp).symm,
    ?_, ?_, ?_, ?_⟩
  · intro hatt
    rw [renderer_draw_attempted] at hatt
    unfold drawAux at hatt
    by_cases hd : (tryD && f.ftype == FrameType.hw) = true
    · rw [if_pos hd] at hatt
      have hd2 := Bool.and_eq_true_iff.mp hd
      have hfd := (render_dmabuf_flags _ f imp).1 hatt
      refine ⟨hd2.1, by simpa using hd2.2, ?_⟩
      rintro ⟨hta, hwo⟩
      have := hfd.2
      rw [show ({ r with frameCount := r.frameCount + 1 } : RendState).dmabufTested =
        r.dmabufTested from rfl] at this
      rw [show ({ r with frameCount := r.frameCount + 1 } : RendState).dmabufWorks =
        r.dmabufWorks from rfl] at this
      rw [hta, hwo] at this
      simp at this
    · rw [if_neg hd] at hatt
      cases hatt
  · intro hok hav
    rw [renderer_draw_swDrew]
    rw [renderer_draw_ok] at hok
    rw [hok, hav]
    rfl
  · intro hta hwo
    have hblock : (({ r with frameCount := r.frameCount + 1 } : RendState).dmabufTested &&
        !({ r with frameCount := r.frameCount + 1 } : RendState).dmabufWorks) = true := by
      show (r.dmabufTested && !r.dmabufWorks) = true
      rw [hta, hwo]
      rfl
    have hda : drawAux r f tryD imp =
        { drew := false, importAttempted := false,
          r := { r with frameCount := r.frameCount + 1 } } := by
      unfold drawAux
      by_cases hd : (tryD && f.ftype == FrameType.hw) = true
      · rw [if_pos hd]
        exact render_dmabuf_blocked _ f imp hblock
      · rw [if_neg hd]
    refine ⟨?_, ?_, ?_, ?_⟩
    · rw [renderer_draw_attempted, hda]
    · rw [renderer_draw_ok, hda]
    · rw [(renderer_draw_rflags r f tryD imp).1, hda]
      exact hta
    · rw [(renderer_draw_rflags r f tryD imp).2, hda]
      exact hwo
  · intro hatt hok
    rw [renderer_draw_attempted] at hatt
    rw [renderer_draw_ok] at hok
    unfold drawAux at hatt hok
    by_cases hd : (tryD && f.ftype == FrameType.hw) = true
    · rw [if_pos hd] at hatt hok
      have := (render_dmabuf_flags _ f imp).2 hatt hok
      constructor
      · rw [(renderer_draw_rflags r f tryD imp).1]
        unfold drawAux
        rw [if_pos hd]
        exact this.1
      · rw [(renderer_draw_rflags r f tryD imp).2]
        unfold drawAux
        rw [if_pos hd]
        exact this.2
    · rw [if_neg hd] at hatt
      cases hatt
  · intro htd hft hhd hpe hnb hce hnm hmod
    have hd : (tryD && f.ftype == FrameType.hw) = true := by
      rw [htd, hft]
      rfl
    have hrdm : render_dmabuf { r with frameCount := r.frameCount + 1 } f imp =
        { drew := false
          importAttempted := false
          r := { (cache_get { r with frameCount := r.frameCount + 1 }
                    f.hw.surfaceId f.hw.generation).2 with
                 dmabufTested := true
                 dmabufWorks := false
                 cache := (cache_get { r with frameCount := r.frameCount + 1 }
                    f.hw.surfaceId f.hw.generation).2.cache.set
                   (cache_get { r with frameCount := r.frameCount + 1 }
                      f.hw.surfaceId f.hw.generation).1
                   { (cache_get { r with frameCount := r.frameCount + 1 }
                        f.hw.surfaceId f.hw.generation).2.cache.getD
                       (cache_get { r with frameCount := r.frameCount + 1 }
                          f.hw.surfaceId f.hw.generation).1 emptyEntry with
                     surfaceId := 0 } } } := by
      unfold render_dmabuf
      rw [if_neg (by simp [show ({ r with frameCount := r.frameCount + 1 } :
            RendState).hasDmabuf = r.hasDmabuf from rfl, hhd,
          show ({ r with frameCount := r.frameCount + 1 } :
            RendState).progExtOk = r.progExtOk from rfl, hpe])]
      rw [if_neg (by
        intro hb
        have hb2 := Bool.and_eq_true_iff.mp hb
        exact hnb ⟨hb2.1, by simpa using hb2.2⟩)]
      have hce2 : ((cache_get { r with frameCount := r.frameCount + 1 }
          f.hw.surfaceId f.hw.generation).2.cache.getD
          (cache_get { r with frameCount := r.frameCount + 1 }
            f.hw.surfaceId f.hw.generation).1 emptyEntry).image = Option.none := hce
      rw [if_pos hce2]
      rw [if_pos (by
        have hm2 : ((cache_get { r with frameCount := r.frameCount + 1 }
            f.hw.surfaceId f.hw.generation).2).hasModifiers = false := by
          rw [(cache_get_fields _ _ _).1]
          exact hnm
        rw [List.any_eq_true] at hmod ⊢
        rcases hmod with ⟨p, hp, hpp⟩
        refine ⟨p, hp, ?_⟩
        rw [hm2]
        simpa using hpp)]
    refine ⟨?_, ?_, ?_, ?_⟩
    · rw [renderer_draw_attempted]
      unfold drawAux
      rw [if_pos hd, hrdm]
    · rw [renderer_draw_ok]
      unfold drawAux
      rw [if_pos hd, hrdm]
    · rw [(renderer_draw_rflags r f tryD imp).1]
      unfold drawAux
      rw [if_pos hd, hrdm]
    · rw [(renderer_draw_rflags r f tryD imp).2]
      unfold drawAux
      rw [if_pos hd, hrdm]

/-- A renderer on which zero-copy import has been proven unsupported. -/
def rLocked : RendState := { rInit with dmabufTested := true, dmabufWorks := false }

/-- Witness for C5 at concrete renderer states. -/
theorem C5_draw_path_selection_witness :
    ((renderer_draw rInit frameZero true (some 42)).ok =
      (renderer_draw rInit frameZero true (some 42)).extDrew) ∧
    ((renderer_draw rLocked frameZero true Option.none).importAttempted = false ∧
     (renderer_draw rLocked frameZero true Option.none).ok = false ∧
     (renderer_draw rLocked frameZero true Option.none).r.dmabufTested = true ∧
     (renderer_draw rLocked frameZero true Option.none).r.dmabufWorks = false) :=
  ⟨(C5_draw_path_selection rInit frameZero true (some 42)).2.1,
   (C5_draw_path_selection rLocked frameZero true Option.none).2.2.2.1 rfl rfl⟩

lemma export_vaapi_dmabuf_spec (dec : DecState) (img : DecodedImage) (frame : FrameM) :
    (export_vaapi_dmabuf dec img frame).2.1.sw = frame.sw ∧
    (export_vaapi_dmabuf dec img frame).2.2.currentRingSlot = dec.currentRingSlot ∧
    ((export_vaapi_dmabuf dec img frame).1 = true →
      (export_vaapi_dmabuf dec img frame).2.1.ftype = FrameType.hw ∧
      (export_vaapi_dmabuf dec img frame).2.1.hw.dmabuf.planes.length > 0) := by
  unfold export_vaapi_dmabuf
  by_cases h1 : (!img.isVaapi) = true
  · rw [if_pos h1]
    exact ⟨rfl, rfl, (fun hc => by cases hc)⟩
  · rw [if_neg h1]
    cases hd : img.exportDesc with
    | none => exact ⟨rfl, rfl, (fun hc => by cases hc)⟩
    | some d =>
      refine ⟨rfl, rfl, ?_⟩
      intro ht
      exact ⟨rfl, of_decide_eq_true ht⟩

lemma extract_sw_frame_spec (dec : DecState) (img : DecodedImage) (frame : FrameM) :
    ((extract_sw_frame dec img frame).1 = true →
       (extract_sw_frame dec img frame).2.1.sw.available = true ∧
       (extract_sw_frame dec img frame).2.1.sw.ringSlot = dec.currentRingSlot ∧
       (extract_sw_frame dec img frame).2.1.ftype =
         (if frame.ftype = FrameType.hw then FrameType.hw else FrameType.sw) ∧
       (extract_sw_frame dec img frame).2.1.hw = frame.hw) ∧
    ((extract_sw_frame dec img frame).1 = false →
       (extract_sw_frame dec img frame).2.1 = frame) := by
  unfold extract_sw_frame
  by_cases h1 : (img.isVaapi && !img.transferOk) = true
  · rw [if_pos h1]
    exact ⟨(fun hc => by cases hc), fun _ => rfl⟩
  · rw [if_neg h1]
    by_cases h2 : (if img.isVaapi = true then SwFmt.nv12 else img.swFormat) = SwFmt.other
    · rw [if_pos h2]
      exact ⟨(fun hc => by cases hc), fun _ => rfl⟩
    · rw [if_neg h2]
      exact ⟨fun _ => ⟨rfl, rfl, rfl, rfl⟩, (fun hc => by cases hc)⟩

lemma decodeExport_spec (dec : DecState) (frame : FrameM) (img : DecodedImage) :
    ((decodeExport dec frame img).1 = true →
       (decodeExport dec frame img).2.1.ftype = FrameType.hw ∧
       (decodeExport dec frame img).2.1.hw.dmabuf.planes.length > 0) ∧
    ((decodeExport dec frame img).2.1.sw.available = false) ∧
    ((decodeExport dec frame img).2.2.currentRingSlot = dec.currentRingSlot) := by
  unfold decodeExport
  by_cases hexp : (img.isVaapi && (!dec.dmabufExportTested || dec.dmabufExportWorks)) = true
  · rw [if_pos hexp]
    have hE := export_vaapi_dmabuf_spec dec img (frame_metadata dec frame img)
    refine ⟨hE.2.2, ?_, hE.2.1⟩
    rw [hE.1]
    rfl
  · rw [if_neg hexp]
    exact ⟨(fun hc => by cases hc), rfl, rfl⟩

lemma decodeExport_gated (dec : DecState) (frame : FrameM) (img : DecodedImage)
    (hte : dec.dmabufExportTested = true) (hwo : dec.dmabufExportWorks = false) :
    (decodeExport dec frame img).1 = false := by
  unfold decodeExport
  rw [if_neg (by rw [hte, hwo]; cases img.isVaapi <;> exact (fun hc => by cases hc))]

lemma process_core (ringPresent needSw : Bool) (img : DecodedImage)
    (b1 : Bool) (f1 : FrameM) (d1 : DecState)
    (hP1 : b1 = true → f1.ftype = FrameType.hw ∧ f1.hw.dmabuf.planes.length > 0)
    (hP2 : f1.sw.available = false)
    (hP3 : d1.currentRingSlot < SW_RING_SIZE) :
    ∀ res : Bool × FrameM × DecState,
    res = (if ringPresent && (needSw || !b1) then
             if !(extract_sw_frame d1 img f1).1 && !b1
             then (false, (extract_sw_frame d1 img f1).2.1, (extract_sw_frame d1 img f1).2.2)
             else (b1 || (extract_sw_frame d1 img f1).2.1.sw.available,
                   (extract_sw_frame d1 img f1).2.1, (extract_sw_frame d1 img f1).2.2)
           else (b1 || f1.sw.available, f1, d1)) →
    res.1 = true →
    ((res.2.1.ftype = FrameType.hw ∧ res.2.1.hw.dmabuf.planes.length > 0) ∨
     (res.2.1.sw.available = true ∧ res.2.1.sw.ringSlot < SW_RING_SIZE)) ∧
    (b1 = false → res.2.1.sw.available = true ∧ res.2.1.sw.ringSlot < SW_RING_SIZE) := by
  intro res hres hrt
  have hX := extract_sw_frame_spec d1 img f1
  cases hb1 : b1 with
  | true =>
    refine ⟨?_, (fun hc => by cases hc)⟩
    have hhw := hP1 hb1
    rw [hb1] at hres
    by_cases hring : (ringPresent && (needSw || !(true : Bool))) = true
    · rw [if_pos hring] at hres
      cases hXb : (extract_sw_frame d1 img f1).1 with
      | true =>
        rw [if_neg (by rw [hXb]; exact (fun hc => by cases hc))] at hres
        left
        have hx := hX.1 hXb
        rw [hres]
        exact ⟨by rw [hx.2.2.1, hhw.1]; rfl, by rw [hx.2.2.2]; exact hhw.2⟩
      | false =>
        rw [if_neg (by rw [hXb]; exact (fun hc => by cases hc))] at hres
        left
        have hx := hX.2 hXb
        rw [hres]
        exact ⟨by rw [hx]; exact hhw.1, by rw [hx]; exact hhw.2⟩
    · rw [if_neg hring] at hres
      left
      rw [hres]
      exact hhw
  | false =>
    rw [hb1] at hres
    cases hrp : ringPresent with
    | true =>
      rw [hrp] at hres
      rw [if_pos (by cases needSw <;> rfl)] at hres
      cases hXb : (extract_sw_frame d1 img f1).1 with
      | false =>
        rw [if_pos (by rw [hXb]; rfl)] at hres
        rw [hres] at hrt
        cases hrt
      | true =>
        rw [if_neg (by rw [hXb]; exact (fun hc => by cases hc))] at hres
        have hx := hX.1 hXb
        have hgoal : res.2.1.sw.available = true ∧ res.2.1.sw.ringSlot < SW_RING_SIZE := by
          rw [hres]
          refine ⟨hx.1, ?_⟩
          show (extract_sw_frame d1 img f1).2.1.sw.ringSlot < SW_RING_SIZE
          rw [hx.2.1]
          exact hP3
        exact ⟨Or.inr hgoal, fun _ => hgoal⟩
    | false =>
      rw [hrp] at hres
      rw [if_neg (by exact (fun hc => by cases hc))] at hres
      rw [hres] at hrt
      rw [hP2] at hrt
      cases hrt

lemma process_decoded_spec (dec : DecState) (frame : FrameM) (ringPresent needSw : Bool)
    (img : DecodedImage) (hslot : dec.currentRingSlot < SW_RING_SIZE) :
    ((process_decoded dec frame ringPresent needSw img).1 = true →
      (((process_decoded dec frame ringPresent needSw img).2.1.ftype = FrameType.hw ∧
        (process_decoded dec frame ringPresent needSw img).2.1.hw.dmabuf.planes.length > 0) ∨
       ((process_decoded dec frame ringPresent needSw img).2.1.sw.available = true ∧
        (process_decoded dec frame ringPresent needSw img).2.1.sw.ringSlot < SW_RING_SIZE))) ∧
    (dec.dmabufExportTested = true → dec.dmabufExportWorks = false →
      (process_decoded dec frame ringPresent needSw img).1 = true →
      (process_decoded dec frame ringPresent needSw img).2.1.sw.available = true ∧
      (process_decoded dec frame ringPresent needSw img).2.1.sw.ringSlot < SW_RING_SIZE) := by
  have hD := decodeExport_spec dec frame img
  have h := process_core ringPresent needSw img (decodeExport dec frame img).1
    (decodeExport dec frame img).2.1 (decodeExport dec frame img).2.2
    hD.1 hD.2.1 (by rw [hD.2.2]; exact hslot)
    (process_decoded dec frame ringPresent needSw img) rfl
  constructor
  · intro hrt
    exact (h hrt).1
  · intro hte hwo hrt
    exact (h hrt).2 (decodeExport_gated dec frame img hte hwo)

/-- C9: whenever `decoder_get_frame` reports success, the produced frame
carries at least one consumable payload: either a `FRAME_HW` payload with a
successfully exported DMA-BUF of at least one plane, or a software copy
marked available in a valid ring slot; in particular, when the hardware
export is gated off as broken, a successful call always carries the forced
software copy, even when the caller passed `need_sw = false`. -/
theorem C9_frame_payload (dec : DecState) (frame : FrameM) (ringPresent needSw : Bool)
    (evts : List LoopEvent) (b : Bool) (f2 : FrameM) (d2 : DecState)
    (hret : decoder_get_frame dec frame ringPresent needSw evts = some (b, f2, d2))
    (hslot : dec.currentRingSlot < SW_RING_SIZE) (hb : b = true) :
    ((f2.ftype = FrameType.hw ∧ f2.hw.dmabuf.planes.length > 0) ∨
     (f2.sw.available = true ∧ f2.sw.ringSlot < SW_RING_SIZE)) ∧
    (dec.dmabufExportTested = true → dec.dmabufExportWorks = false →
       f2.sw.available = true ∧ f2.sw.ringSlot < SW_RING_SIZE) := by
  subst hb
  revert hret
  induction evts with
  | nil => intro hret; cases hret
  | cons e rest ih =>
    intro hret
    cases e with
    | recvOk img =>
      simp only [decoder_get_frame, Option.some.injEq] at hret
      have hspec := process_decoded_spec dec frame ringPresent needSw img hslot
      have h1 : (process_decoded dec frame ringPresent needSw img).1 = true := by
        rw [hret]
      have h2 : (process_decoded dec frame ringPresent needSw img).2.1 = f2 := by
        rw [hret]
      rw [h2] at hspec
      exact ⟨hspec.1 h1, fun hte hwo => hspec.2 hte hwo h1⟩
    | recvEof =>
      simp only [decoder_get_frame, Option.some.injEq] at hret
      have := congrArg Prod.fst hret
      cases this
    | recvErr =>
      simp only [decoder_get_frame, Option.some.injEq] at hret
      have := congrArg Prod.fst hret
      cases this
    | needInput r =>
      cases r with
      | readEof => exact ih hret
      | readErr =>
        simp only [decoder_get_frame, Option.some.injEq] at hret
        have := congrArg Prod.fst hret
        cases this
      | wrongStream => exact ih hret
      | packet sendFail =>
        cases sendFail with
        | true =>
          simp only [decoder_get_frame, if_true, Option.some.injEq] at hret
          have := congrArg Prod.fst hret
          cases this
        | false => exact ih hret

/-- A concrete NV12 export descriptor: one underlying object with the
linear modifier, two planes (luma and packed chroma) referencing it. -/
def descNV12 : VADesc :=
  { fourcc := 842094158, width := 1920, height := 1080, numObjects := 1,
    objModifier := fun _ => 0,
    planes := [{ objectIndex := 0, offset := 0, pitch := 1920 },
               { objectIndex := 0, offset := 2073600, pitch := 1920 }] }

/-- A concrete decoded 1920 by 1080 VA-API image on surface 7 whose export
succeeds. -/
def imgHW : DecodedImage :=
  { isVaapi := true, width := 1920, height := 1080, pts := Option.none,
    colorspace := some CSpace.bt709, colorRange := some CRange.limited,
    surfaceId := 7, exportDesc := some descNV12, transferOk := true,
    swFormat := SwFmt.nv12 }

/-- A freshly initialised decoder state. -/
def dec0 : DecState :=
  { surfaceGeneration := 0, dmabufExportTested := false, dmabufExportWorks := false,
    currentRingSlot := 0, eof := false, timeBase := 1,
    ctxColorspace := Option.none, ctxRange := Option.none }

/-- The first decoded frame of the run and the decoder state after it. -/
def pdA : Bool × FrameM × DecState := process_decoded dec0 frameZero true false imgHW

/-- The second decoded frame (same VA surface, no seek between) and the
decoder state after it. -/
def pdB : Bool × FrameM × DecState := process_decoded pdA.2.2 pdA.2.1 true false imgHW

/-- Witness for C9 at the concrete first-frame decode. -/
theorem C9_frame_payload_witness :
    dec0.currentRingSlot < SW_RING_SIZE ∧
    (((pdA.2.1.ftype = FrameType.hw ∧ pdA.2.1.hw.dmabuf.planes.length > 0) ∨
      (pdA.2.1.sw.available = true ∧ pdA.2.1.sw.ringSlot < SW_RING_SIZE)) ∧
     (dec0.dmabufExportTested = true → dec0.dmabufExportWorks = false →
       pdA.2.1.sw.available = true ∧ pdA.2.1.sw.ringSlot < SW_RING_SIZE)) :=
  ⟨by decide,
   C9_frame_payload dec0 frameZero true false [LoopEvent.recvOk imgHW]
     pdA.1 pdA.2.1 pdA.2.2 rfl (by decide) (by decide)⟩

/-- C2 (code bug): the surface generation counter is not incremented only
on seeks and external invalidations: `export_vaapi_dmabuf` stamps
`frame->hw.generation = dec->surface_generation++`, so the counter is also
bumped on every successful export.  Two consecutive frames decoded from the
same VA surface with no seek between them carry generations 0 and 1 instead
of one shared value, contradicting the spec and the declared
`decoder_increment_generation` invalidation hook in `wlvideo.h`. -/
theorem C2_codebug_generation_bumped_every_export :
    decoder_get_frame dec0 frameZero true false [LoopEvent.recvOk imgHW] =
      some (true, pdA.2.1, pdA.2.2) ∧
    decoder_get_frame pdA.2.2 pdA.2.1 true false [LoopEvent.recvOk imgHW] =
      some (true, pdB.2.1, pdB.2.2) ∧
    pdA.2.1.hw.surfaceId = 7 ∧
    pdB.2.1.hw.surfaceId = 7 ∧
    pdA.2.1.hw.generation = 0 ∧
    pdB.2.1.hw.generation = 1 ∧
    pdA.2.2.surfaceGeneration = 1 ∧
    pdB.2.2.surfaceGeneration = 2 := by
  refine ⟨?_, ?_, by decide, by decide, by decide, by decide, by decide, by decide⟩
  · show some pdA = some (true, pdA.2.1, pdA.2.2)
    rw [show pdA = (true, pdA.2.1, pdA.2.2) from by decide]
  · show some pdB = some (true, pdB.2.1, pdB.2.2)
    rw [show pdB = (true, pdB.2.1, pdB.2.2) from by decide]

/-- C1 (code bug): because every export bumps the generation, the draw of a
later frame with the same surface identity never hits the cache.  In a run
where hardware decode is active and zero-copy import succeeds on the first
frame (`renderer_draw` returns true, locking the render path), the second
frame exported from the same surface misses the exact
`(surface_id, generation)` lookup and `eglCreateImageKHR` is called again,
where the claim (and render.c's own header comment) expects a cache hit and
no new import. -/
theorem C1_codebug_same_surface_reimported :
    (renderer_draw rInit pdA.2.1 true (some 42)).importAttempted = true ∧
    (renderer_draw rInit pdA.2.1 true (some 42)).ok = true ∧
    pdB.2.1.hw.surfaceId = pdA.2.1.hw.surfaceId ∧
    cacheHit (renderer_draw rInit pdA.2.1 true (some 42)).r
      pdB.2.1.hw.surfaceId pdB.2.1.hw.generation = false ∧
    (renderer_draw (renderer_draw rInit pdA.2.1 true (some 42)).r
      pdB.2.1 true (some 43)).importAttempted = true := by
  refine ⟨by decide, by decide, by decide, by decide, by decide⟩

lemma cTrunc_intCast (n : Int) : cTrunc (n : Rat) = n := by
  unfold cTrunc
  by_cases h : (0 : Rat) ≤ (n : Rat)
  · rw [if_pos h]
    exact Int.floor_intCast n
  · rw [if_neg h]
    rw [show -((n : Rat)) = ((-n : Int) : Rat) from by push_cast; ring]
    rw [Int.floor_intCast]
    ring

lemma tick_reset_target (t d : Rat) (hd : 0 < d) (disp : Int) :
    targetAt (t - (disp : Rat) * d) t d = disp := by
  unfold targetAt
  rw [show t - (t - (disp : Rat) * d) = (disp : Rat) * d from by ring]
  rw [mul_div_cancel_right₀ _ (ne_of_gt hd)]
  exact cTrunc_intCast disp

lemma catchupStep_decoded (t : Rat) (c : Bool) (e : DecEvent) (s : TickState) :
    (catchupStep t c e s).decoded = s.decoded ∨
    (catchupStep t c e s).decoded = s.decoded + 1 := by
  cases e with
  | frameOk isHw hdl =>
    right
    simp only [catchupStep]
    split_ifs <;> rfl
  | decFail seekOk =>
    left
    simp only [catchupStep]
    split_ifs <;> rfl

lemma catchup_decoded_le (t : Rat) (cfgLoop : Bool) :
    ∀ (evts : List DecEvent) (s : TickState), s.decoded ≤ max_skip →
      (catchup t cfgLoop evts s).decoded ≤ max_skip := by
  intro evts
  induction evts with
  | nil => intro s h; exact h
  | cons e rest ih =>
    intro s h
    unfold catchup
    split_ifs with hg
    · apply ih
      rcases catchupStep_decoded t cfgLoop e s with hc | hc <;> rw [hc] <;> omega
    · exact h

/-- C3: on every scheduler tick whose target index exceeds the displayed
index, the catch-up loop decodes and advances at most `max_skip = 5`
frames; and whenever the remaining shortfall after the bounded catch-up
still exceeds `reset_threshold = 10` (twice the bound), the start time is
reset so that the target index recomputed at the same tick time equals the
displayed index. -/
theorem C3_bounded_catchup_and_pacing_reset (t d : Rat) (cfgLoop : Bool)
    (evts : List DecEvent) (s : SchedState) (hd : 0 < d) :
    (schedTick t d cfgLoop evts s).decoded ≤ max_skip ∧
    ((schedTick t d cfgLoop evts s).didReset = true →
      targetAt (schedTick t d cfgLoop evts s).s.startTime t d =
        (schedTick t d cfgLoop evts s).s.displayed) := by
  unfold schedTick
  by_cases hgt : targetAt s.startTime t d > s.displayed
  · rw [if_pos hgt]
    by_cases hrs : (tickCore t d cfgLoop evts s).target -
        (tickCore t d cfgLoop evts s).displayed > reset_threshold
    · rw [if_pos hrs]
      constructor
      · show (tickCore t d cfgLoop evts s).decoded ≤ max_skip
        unfold tickCore
        exact catchup_decoded_le t cfgLoop evts _ (Nat.zero_le _)
      · intro _
        exact tick_reset_target t d hd _
    · rw [if_neg hrs]
      constructor
      · show (tickCore t d cfgLoop evts s).decoded ≤ max_skip
        unfold tickCore
        exact catchup_decoded_le t cfgLoop evts _ (Nat.zero_le _)
      · intro hc
        cases hc
  · rw [if_neg hgt]
    exact ⟨Nat.zero_le _, (fun hc => by cases hc)⟩

/-- Witness for C3 at a concrete stalled-decoder tick (frame duration 1/30,
start at 0, tick at time 1, one decoded frame). -/
theorem C3_bounded_catchup_and_pacing_reset_witness :
    (0 : Rat) < 1/30 ∧
    ((schedTick 1 (1/30) true [DecEvent.frameOk true 11]
        { startTime := 0, displayed := -1, running := true, haveFrame := false,
          curHandle := Option.none, openHandles := [] }).decoded ≤ max_skip ∧
     ((schedTick 1 (1/30) true [DecEvent.frameOk true 11]
        { startTime := 0, displayed := -1, running := true, haveFrame := false,
          curHandle := Option.none, openHandles := [] }).didReset = true →
       targetAt (schedTick 1 (1/30) true [DecEvent.frameOk true 11]
          { startTime := 0, displayed := -1, running := true, haveFrame := false,
            curHandle := Option.none, openHandles := [] }).s.startTime 1 (1/30) =
         (schedTick 1 (1/30) true [DecEvent.frameOk true 11]
            { startTime := 0, displayed := -1, running := true, haveFrame := false,
              curHandle := Option.none, openHandles := [] }).s.displayed)) :=
  ⟨by norm_num,
   C3_bounded_catchup_and_pacing_reset 1 (1/30) true [DecEvent.frameOk true 11]
     { startTime := 0, displayed := -1, running := true, haveFrame := false,
       curHandle := Option.none, openHandles := [] } (by norm_num)⟩

/-- The in-loop handle invariant: the open handle sets are exactly those of
the current frame, and while a hardware frame is held open the loop guard
is false (its handles are only kept once the target is reached). -/
def tickInv (c : TickState) : Prop :=
  c.openHandles = (match c.curHandle with
                   | some h => [h]
                   | Option.none => []) ∧
  (c.curHandle ≠ Option.none → ¬(c.displayed < c.target))

lemma catchupStep_tickInv (t : Rat) (cfgLoop : Bool) (e : DecEvent) (s : TickState)
    (hinv : tickInv s) (hg : s.running = true ∧ s.displayed < s.target ∧
      s.decoded < max_skip) :
    tickInv (catchupStep t cfgLoop e s) := by
  have hcur : s.curHandle = Option.none := by
    by_contra hne
    exact hinv.2 hne hg.2.1
  have hopen : s.openHandles = [] := by
    rw [hinv.1, hcur]
  cases e with
  | frameOk isHw hdl =>
    simp only [catchupStep]
    cases isHw with
    | true =>
      by_cases hge : s.displayed + 1 ≥ s.target
      · rw [if_pos (by simpa using hge)]
        refine ⟨by simp [hopen], ?_⟩
        intro _
        show ¬(s.displayed + 1 < s.target)
        omega
      · rw [if_neg (by simpa using hge)]
        rw [if_pos rfl]
        refine ⟨?_, ?_⟩
        · show ((if (true : Bool) = true then hdl :: s.openHandles
              else s.openHandles).erase hdl) = _
          rw [if_pos rfl, hopen]
          simp
        · intro hne
          simp at hne
    | false =>
      by_cases hge : s.displayed + 1 ≥ s.target
      · rw [if_pos (by simpa using hge)]
        refine ⟨by simp [hopen], ?_⟩
        intro hne
        simp at hne
      · rw [if_neg (by simpa using hge)]
        rw [if_neg (by simp)]
        refine ⟨by simp [hopen], ?_⟩
        intro hne
        simp at hne
  | decFail seekOk =>
    simp only [catchupStep]
    split_ifs <;>
      exact ⟨by simp [hopen, hcur], by intro hne; simp [hcur] at hne⟩

lemma catchup_tickInv (t : Rat) (cfgLoop : Bool) :
    ∀ (evts : List DecEvent) (s : TickState), tickInv s →
      tickInv (catchup t cfgLoop evts s) := by
  intro evts
  induction evts with
  | nil => intro s h; exact h
  | cons e rest ih =>
    intro s h
    unfold catchup
    split_ifs with hg
    · exact ih _ (catchupStep_tickInv t cfgLoop e s h ⟨hg.1, hg.2.1, hg.2.2⟩)
    · exact h

lemma closeCurrent_spec (s : SchedState) (h : handleInv s) :
    (closeCurrent s).openHandles = [] ∧ (closeCurrent s).curHandle = Option.none := by
  unfold handleInv at h
  unfold closeCurrent
  cases hc : s.curHandle with
  | none =>
    simp only [hc]
    rw [hc] at h
    simp at h
    exact ⟨h, by trivial⟩
  | some hd =>
    simp only [hc]
    rw [hc] at h
    constructor
    · show (s.openHandles.erase hd) = []
      rw [h]
      simp
    · trivial

/-- C4: DMA-BUF handle sets are released within one scheduler tick of being
superseded or skipped, and at shutdown.  If before a tick the open handle
sets are exactly those of the currently displayed hardware frame, the same
holds after the tick — the previous frame's handles are closed before the
first decode, a skipped frame's handles are closed in the same loop
iteration (the in-loop invariant `tickInv` is maintained at every step), so
at most one handle set is ever in flight — and the cleanup close at
shutdown leaves no handle open. -/
theorem C4_handle_release_within_tick (t d : Rat) (cfgLoop : Bool)
    (evts : List DecEvent) (s : SchedState) (hinv : handleInv s) :
    handleInv (schedTick t d cfgLoop evts s).s ∧
    (cleanupClose (schedTick t d cfgLoop evts s).s).openHandles = [] := by
  have hmain : handleInv (schedTick t d cfgLoop evts s).s := by
    unfold schedTick
    by_cases hgt : targetAt s.startTime t d > s.displayed
    · rw [if_pos hgt]
      have hcs := closeCurrent_spec s hinv
      have hc0 : tickInv
          { startTime := (closeCurrent s).startTime
            displayed := (closeCurrent s).displayed
            target := targetAt s.startTime t d
            decoded := 0
            running := (closeCurrent s).running
            haveFrame := (closeCurrent s).haveFrame
            curHandle := (closeCurrent s).curHandle
            openHandles := (closeCurrent s).openHandles
            cacheClears := 0 } := by
        constructor
        · show (closeCurrent s).openHandles = _
          rw [hcs.1, hcs.2]
        · intro hne
          exact absurd hcs.2 hne
      have htc : tickInv (tickCore t d cfgLoop evts s) := by
        unfold tickCore
        exact catchup_tickInv t cfgLoop evts _ hc0
      by_cases hrs : (tickCore t d cfgLoop evts s).target -
          (tickCore t d cfgLoop evts s).displayed > reset_threshold
      · rw [if_pos hrs]
        exact htc.1
      · rw [if_neg hrs]
        exact htc.1
    · rw [if_neg hgt]
      exact hinv
  exact ⟨hmain, (closeCurrent_spec _ hmain).1⟩

/-- A scheduler state holding one displayed hardware frame. -/
def schedS : SchedState :=
  { startTime := 0, displayed := 0, running := true, haveFrame := true,
    curHandle := some 5, openHandles := [5] }

/-- Witness for C4 at a concrete tick. -/
theorem C4_handle_release_within_tick_witness :
    handleInv schedS ∧
    (handleInv (schedTick 1 (1/30) true [DecEvent.frameOk true 11] schedS).s ∧
     (cleanupClose (schedTick 1 (1/30) true
        [DecEvent.frameOk true 11] schedS).s).openHandles = []) :=
  ⟨rfl, C4_handle_release_within_tick 1 (1/30) true [DecEvent.frameOk true 11] schedS rfl⟩

/-- A concrete export descriptor with two objects, three planes (two
sharing object 0) and one unreferenced object would leak; here object 1 is
referenced once. -/
def demoDesc : VADesc :=
  { fourcc := 842094158, width := 1920, height := 1080, numObjects := 2,
    objModifier := fun _ => 0,
    planes := [{ objectIndex := 0, offset := 0, pitch := 1920 },
               { objectIndex := 0, offset := 2073600, pitch := 1920 },
               { objectIndex := 1, offset := 0, pitch := 960 }] }

/-- Witness for C7 at a concrete descriptor and plane index. -/
theorem C7_export_fd_ownership_witness :
    (0 : Nat) < (demoDesc.planes.take 4).length ∧
    ((exportPlanes demoDesc).1.getD 0 hwDef).fd =
      (if ((demoDesc.planes.take 4).getD 0 vaDef).objectIndex < demoDesc.numObjects then
         if (((demoDesc.planes.take 4).take 0).any fun q =>
              q.objectIndex == ((demoDesc.planes.take 4).getD 0 vaDef).objectIndex)
         then FdVal.dup ((demoDesc.planes.take 4).getD 0 vaDef).objectIndex
         else FdVal.orig ((demoDesc.planes.take 4).getD 0 vaDef).objectIndex
       else FdVal.invalid) :=
  ⟨by decide, (C7_export_fd_ownership demoDesc).1 0 (by decide)⟩
